import Mathlib

/-!
Verification of the change-detection / deduplication core of the Jira
notifier repository (`app.py`, `jira/core.py`, `jira/issues.py`,
`jira/statistics.py`, `jira_api.py`).

The Python source is shallowly embedded: dictionaries become association
lists, Python exceptions become explicit error constructors, wall-clock
reads become explicit `now` parameters, and the Discord sink plus the
strptime-based date parser become oracle function parameters (the code
only branches on their results).  Each definition is annotated with the
source function it translates.
-/

namespace JiraSpec

/-- Python `needle in haystack` prefix helper on character lists. -/
def isPre : List Char → List Char → Bool
  | [], _ => true
  | _ :: _, [] => false
  | a :: as, b :: bs => a == b && isPre as bs

/-- Python substring containment `needle in haystack` on character lists. -/
def subChars (needle : List Char) : List Char → Bool
  | [] => needle.isEmpty
  | c :: t => isPre needle (c :: t) || subChars needle t

/-- Python `needle in haystack` for strings (substring containment). -/
def strHasSub (needle hay : String) : Bool :=
  subChars needle.data hay.data

/-- Python `str.lower()` (ASCII case folding, structurally recursive so the
kernel can evaluate it on literals). -/
def strToLower (s : String) : String :=
  ⟨s.data.map Char.toLower⟩

/-- Lexicographic `<` on character lists. -/
def charListLt : List Char → List Char → Bool
  | [], [] => false
  | [], _ :: _ => true
  | _ :: _, [] => false
  | a :: as, b :: bs => a < b || (a == b && charListLt as bs)

/-- Python `s1 < s2` on strings: lexicographic comparison of code points
(`"2025-01-01" < "2025-01-02"` etc.). -/
def strLtB (a b : String) : Bool :=
  charListLt a.data b.data

/-- Lookup in an association list (a Python `dict` read). -/
def lookupAssoc {β : Type} : List (String × β) → String → Option β
  | [], _ => none
  | (k, v) :: t, key => if k == key then some v else lookupAssoc t key

/-- Python `dict[key] = value`: overwrite in place, or append a new entry. -/
def updAssoc {β : Type} : List (String × β) → String → β → List (String × β)
  | [], key, v => [(key, v)]
  | (k, w) :: t, key, v =>
      if k == key then (k, v) :: t else (k, w) :: updAssoc t key v

/-! ## Data model

`IssueSnapshot` fields as read by the detectors
(`issue['key']`, `fields.issuetype.name`, `fields.project.key`,
`fields.status.name`, `fields.duedate`, `fields.comment.comments`,
`changelog.histories`).  Due dates are modelled as day numbers; ISO date
strings compare chronologically, so `<`/`≤` on day numbers mirrors the
JQL comparisons the code writes into its query strings. -/

/-- One element of `history['items']`. -/
structure ChangeItem where
  field : String
  fromString : String
  toString : String
  deriving Repr, DecidableEq

/-- One element of `changelog['histories']`; `author` is the
`author.displayName` the code reads. -/
structure History where
  id : String
  created : String
  author : String
  items : List ChangeItem
  deriving Repr, DecidableEq

/-- One element of `fields.comment.comments`. -/
structure Comment where
  id : String
  author : String
  body : String
  created : String
  deriving Repr, DecidableEq

/-- An issue snapshot as returned by the remote search. -/
structure Issue where
  key : String
  issuetype : String
  projectKey : String
  status : String
  dueDay : Option Nat
  comments : List Comment
  histories : List History
  deriving Repr, DecidableEq

/-! ## Notification ledger (`jira/core.py` 225-243)

`_notification_history` maps a category to a map from entity key to
`{timestamp, reason}`.  `was_issue_notified` only tests key membership,
so the ledger is embedded as a list of records; `mark_issue_notified`
prepends (overwriting vs. shadowing is indistinguishable to reads). -/

structure LedgerEntry where
  category : String
  key : String
  reason : String
  deriving Repr, DecidableEq

abbrev Ledger := List LedgerEntry

/-- `JiraCore.was_issue_notified` (`jira/core.py` 238-243). -/
def wasIssueNotified (L : Ledger) (cat k : String) : Bool :=
  L.any fun e => e.category == cat && e.key == k

/-- `JiraCore.mark_issue_notified` (`jira/core.py` 225-236). -/
def markIssueNotified (L : Ledger) (cat k reason : String) : Ledger :=
  ⟨cat, k, reason⟩ :: L

/-! ## Reopen pattern matcher

`StatisticsHandler.find_reopened_bugs_by_jql` (`jira/statistics.py`
479-526) and the structurally identical loop in
`JiraAPI.find_reopened_bugs_by_jql` (`jira_api.py` 1342-1377): scan the
histories in order; inside each history scan the items in order; stop at
the first item whose field is `status`, whose lowercased `fromString`
contains some member of `from_states` and whose lowercased `toString`
contains some member of `to_states`. -/

/-- The transition data the matcher extracts
(`reopen_from` / `reopen_to` / `reopen_by` / `reopen_time`). -/
structure Transition where
  fromStatus : String
  toStatus : String
  author : String
  created : String
  deriving Repr, DecidableEq

/-- The per-item test of the matcher loop: field is `status` and both
lowercased endpoints contain a configured state (Python substring `in`). -/
def matchStatusItem (fromStates toStates : List String) (it : ChangeItem) : Bool :=
  it.field == "status"
    && fromStates.any (fun s => strHasSub s (strToLower it.fromString))
    && toStates.any (fun s => strHasSub s (strToLower it.toString))

/-- The matcher: first qualifying (history, item) pair wins; the double
`break` in the source stops the whole scan at that point. -/
def matchReopen (fromStates toStates : List String) : List History → Option Transition
  | [] => none
  | h :: rest =>
      match h.items.find? (matchStatusItem fromStates toStates) with
      | some it => some ⟨it.fromString, it.toString, h.author, h.created⟩
      | none => matchReopen fromStates toStates rest

/-- `from_states` configured in `jira/statistics.py` 476. -/
def statsFromStates : List String :=
  ["reviewing", "review", "in review", "under review", "done", "closed"]

/-- `to_states` configured in `jira/statistics.py` 477. -/
def statsToStates : List String :=
  ["todo", "to do", "in progress", "reopened", "request", "backlog", "open"]

/-- `from_states` configured in `jira_api.py` 1339. -/
def apiFromStates : List String := ["reviewing"]

/-- `to_states` configured in `jira_api.py` 1340. -/
def apiToStates : List String := ["todo", "to do", "in progress", "reopened", "request"]

/-! ## Reopened-bug detection pipeline

`StatisticsHandler.find_reopened_bugs_by_jql` annotates each bug whose
changelog matches the reopen pattern with `reopen_time` / `reopen_from` /
`reopen_to` / `reopen_by` and returns the annotated bugs; the notify loop
in `app.check_reopened_bugs` (`app.py` 127-185) then consumes them. -/

/-- The fields of an annotated reopened bug that `check_reopened_bugs`
reads (`bug['key']`, `bug['reopen_time']`, `bug['reopen_from']`,
`bug['reopen_to']`, `bug['reopen_by']`). -/
structure ReopenCandidate where
  issueKey : String
  reopenTime : Option String
  reopenFrom : String
  reopenTo : String
  reopenBy : String
  deriving Repr, DecidableEq

/-- The candidate list produced by `find_reopened_bugs_by_jql` from a
fixed fetched bug snapshot (`jira/statistics.py` 479-526): bugs whose
changelog matches, annotated with the first matching transition. -/
def findReopenCandidates (fromStates toStates : List String) (bugs : List Issue) :
    List ReopenCandidate :=
  bugs.filterMap fun b =>
    match matchReopen fromStates toStates b.histories with
    | some t => some ⟨b.key, some t.created, t.fromStatus, t.toStatus, t.author⟩
    | none => none

/-- `notification_key = f"{issue_key}-reopen-{reopen_time_str}"` (`app.py` 156). -/
def reopenKey (issueKey reopenTime : String) : String :=
  issueKey ++ "-reopen-" ++ reopenTime

/-- `reopen_time_str.split('T')[0]` (`app.py` 140). -/
def dateOf (ts : String) : String :=
  ⟨ts.data.takeWhile (fun c => c ≠ 'T')⟩

/-- The notify loop of `app.check_reopened_bugs` (`app.py` 127-185).
`parseDate` is the `strptime`/`strftime` round-trip oracle (`none` when
`strptime` raises); `send` is the Discord sink oracle keyed by
(category, entity key); `yesterday`/`today` are the date-window bounds
computed once per cycle.  Returns the list of (category, key) pairs for
which a notification was attempted, and the final ledger. -/
def checkReopenedBugs (send : String → String → Bool) (parseDate : String → Option String)
    (yesterday today : String) :
    List ReopenCandidate → Ledger → List (String × String) × Ledger
  | [], L => ([], L)
  | b :: rest, L =>
      match b.reopenTime with
      | none => checkReopenedBugs send parseDate yesterday today rest L
      | some t =>
          match parseDate (dateOf t) with
          | none => checkReopenedBugs send parseDate yesterday today rest L
          | some d =>
              if strLtB d yesterday || strLtB today d then
                checkReopenedBugs send parseDate yesterday today rest L
              else
                let k := reopenKey b.issueKey t
                if wasIssueNotified L "bugs" k then
                  checkReopenedBugs send parseDate yesterday today rest L
                else
                  let L2 :=
                    if send "bugs" k then
                      markIssueNotified L "bugs" k
                        ("reopened: from " ++ b.reopenFrom ++ " to " ++ b.reopenTo
                          ++ " by " ++ b.reopenBy)
                    else L
                  let out := checkReopenedBugs send parseDate yesterday today rest L2
                  (("bugs", k) :: out.1, out.2)

/-- One full reopened-bug detection cycle against a fixed bug snapshot:
recompute the candidates, then run the notify loop. -/
def reopenedBugCycle (send : String → String → Bool) (parseDate : String → Option String)
    (yesterday today : String) (bugs : List Issue) (L : Ledger) :
    List (String × String) × Ledger :=
  checkReopenedBugs send parseDate yesterday today
    (findReopenCandidates statsFromStates statsToStates bugs) L

/-! ## The other five detectors and their notify loops

Each `check_*` function in `app.py` fetches a snapshot, filters it
against the ledger, sends each surviving event to the Discord sink and
marks the ledger only when the sink returned true.  The cycles below are
parameterized by the fixed fetched snapshot and by the sink oracle
`send : category → entityKey → Bool`. -/

/-- The ledger filter shared by `find_new_issues` (`jira/issues.py`
160-162), `find_overdue_issues` (296-298) and `find_upcoming_deadlines`
(313-315): drop issues already notified under category `'issues'`. -/
def filterUnnotifiedIssues (snap : List Issue) (L : Ledger) : List Issue :=
  snap.filter fun i => !(wasIssueNotified L "issues" i.key)

/-- The common notify-and-mark loop shape of `app.py`: for each event,
call the sink, and mark `(cat, keyOf x)` only when it returned true.
`check_new_issues` (208-220), `check_overdue_issues` (351-363) and
`check_upcoming_deadlines` (386-398) instantiate it with whole issues;
the inner loops of `check_status_changes` (262-281) and
`check_new_comments` (311-328) with per-issue sub-events.  Component 1
lists the (category, key) pairs for which the sink was invoked. -/
def notifyLoop {α : Type} (send : String → String → Bool) (cat : String)
    (keyOf : α → String) (reasonOf : α → String) :
    List α → Ledger → List (String × String) × Ledger
  | [], L => ([], L)
  | x :: rest, L =>
      let k := keyOf x
      let L2 := if send cat k then markIssueNotified L cat k (reasonOf x) else L
      let out := notifyLoop send cat keyOf reasonOf rest L2
      ((cat, k) :: out.1, out.2)

/-- One `check_new_issues` cycle (`app.py` 188-220) over a fixed snapshot. -/
def newIssuesCycle (send : String → String → Bool) (snap : List Issue) (L : Ledger) :
    List (String × String) × Ledger :=
  notifyLoop send "issues" Issue.key (fun _ => "new issue") (filterUnnotifiedIssues snap L) L

/-- One `check_overdue_issues` cycle (`app.py` 331-363) over a fixed snapshot. -/
def overdueCycle (send : String → String → Bool) (snap : List Issue) (L : Ledger) :
    List (String × String) × Ledger :=
  notifyLoop send "issues" Issue.key (fun _ => "overdue") (filterUnnotifiedIssues snap L) L

/-- One `check_upcoming_deadlines` cycle (`app.py` 366-398) over a fixed snapshot. -/
def upcomingCycle (send : String → String → Bool) (snap : List Issue) (L : Ledger) :
    List (String × String) × Ledger :=
  notifyLoop send "issues" Issue.key (fun _ => "upcoming deadline") (filterUnnotifiedIssues snap L) L

/-- `to_status in ['to do', 'todo', 'in progress']` on the lowercased
target status (`jira/issues.py` 210-211). -/
def actionableTo (s : String) : Bool :=
  strToLower s == "to do" || strToLower s == "todo" || strToLower s == "in progress"

/-- One status change as attached to `issue['status_changes']`
(`jira/issues.py` 222-227). -/
structure StatusChange where
  historyId : String
  fromStatus : String
  toStatus : String
  updatedBy : String
  deriving Repr, DecidableEq

/-- First item of a history entry that is a `status` change into an
actionable state (`jira/issues.py` 207-232; the `break` fires only on
the matching branch, so non-matching status items are passed over). -/
def qualifyingStatusItem (h : History) : Option ChangeItem :=
  h.items.find? fun it => it.field == "status" && actionableTo it.toString

/-- Per-issue extraction of `find_status_changes` (`jira/issues.py`
183-232).  `stale` is the wall-clock oracle of the window test on
`history['created']`: `true` when the stamp parses and lies outside the
window (the code then skips the entry); empty or unparsable stamps are
processed. -/
def statusChangesOf (stale : String → Bool) (L : Ledger) (i : Issue) : List StatusChange :=
  i.histories.filterMap fun h =>
    if wasIssueNotified L "status_changes" (i.key ++ "-" ++ h.id) then none
    else if h.created != "" && stale h.created then none
    else
      match qualifyingStatusItem h with
      | some it => some ⟨h.id, it.fromString, it.toString, h.author⟩
      | none => none

/-- `IssueHandler.find_status_changes` over a fixed fetched snapshot:
issues with at least one fresh unnotified qualifying change, paired with
those changes. -/
def findStatusChanges (stale : String → Bool) (L : Ledger) (snap : List Issue) :
    List (Issue × List StatusChange) :=
  snap.filterMap fun i =>
    match statusChangesOf stale L i with
    | [] => none
    | cs => some (i, cs)

/-- The reason string of `app.py` 279-280. -/
def statusChangeReason (c : StatusChange) : String :=
  "status change: " ++ c.fromStatus ++ " to " ++ c.toStatus

/-- Outer loop of `check_status_changes` (`app.py` 244-283): issues whose
lowercased type contains `bug` are skipped entirely (bugs are owned by
the reopen detector); other issues run the notify loop over their changes
keyed `<issueKey>-<historyId>` under category `status_changes`. -/
def notifyStatusChanges (send : String → String → Bool) :
    List (Issue × List StatusChange) → Ledger → List (String × String) × Ledger
  | [], L => ([], L)
  | (i, cs) :: rest, L =>
      if strHasSub "bug" (strToLower i.issuetype) then
        notifyStatusChanges send rest L
      else
        let out1 := notifyLoop send "status_changes"
          (fun c => i.key ++ "-" ++ c.historyId) statusChangeReason cs L
        let out2 := notifyStatusChanges send rest out1.2
        (out1.1 ++ out2.1, out2.2)

/-- One `check_status_changes` cycle over a fixed fetched snapshot. -/
def statusChangesCycle (send : String → String → Bool) (stale : String → Bool)
    (snap : List Issue) (L : Ledger) : List (String × String) × Ledger :=
  notifyStatusChanges send (findStatusChanges stale L snap) L

/-- Per-issue extraction of `find_new_comments` (`jira/issues.py`
251-280): unnotified comments whose `created` stamp is nonempty and
within the window (`cRecent` is the parse-and-window oracle; empty or
unparsable stamps are not collected). -/
def newCommentsOf (cRecent : String → Bool) (L : Ledger) (i : Issue) : List Comment :=
  i.comments.filter fun c =>
    !(wasIssueNotified L "comments" (i.key ++ "-" ++ c.id))
      && c.created != "" && cRecent c.created

/-- `IssueHandler.find_new_comments` over a fixed fetched snapshot. -/
def findNewComments (cRecent : String → Bool) (L : Ledger) (snap : List Issue) :
    List (Issue × List Comment) :=
  snap.filterMap fun i =>
    match newCommentsOf cRecent L i with
    | [] => none
    | cs => some (i, cs)

/-- Outer loop of `check_new_comments` (`app.py` 306-328): the notify
loop over each issue's new comments, keyed `<issueKey>-<commentId>` under
category `comments`. -/
def notifyNewComments (send : String → String → Bool) :
    List (Issue × List Comment) → Ledger → List (String × String) × Ledger
  | [], L => ([], L)
  | (i, cs) :: rest, L =>
      let out1 := notifyLoop send "comments"
        (fun c => i.key ++ "-" ++ c.id) (fun _ => "new comment") cs L
      let out2 := notifyNewComments send rest out1.2
      (out1.1 ++ out2.1, out2.2)

/-- One `check_new_comments` cycle over a fixed fetched snapshot. -/
def newCommentsCycle (send : String → String → Bool) (cRecent : String → Bool)
    (snap : List Issue) (L : Ledger) : List (String × String) × Ledger :=
  notifyNewComments send (findNewComments cRecent L snap) L

/-! ## TTL cache (`jira/core.py` 186-202; textually identical in
`jira_api.py` 314-329) -/

/-- `self._default_cache_time = 30 * 60` (`jira/core.py` 32). -/
def defaultCacheTime : Nat := 30 * 60

/-- Python `(expiry or self._default_cache_time)` (`jira/core.py` 202):
`None` and `0` are both falsy, so both select the default. -/
def pyOrDefault (expiry : Option Nat) (d : Nat) : Nat :=
  match expiry with
  | none => d
  | some e => if e = 0 then d else e

/-- The `_issues_cache` / `_cache_expiry` pair; wall-clock seconds are
embedded as naturals. -/
structure CacheState where
  issuesCache : List (String × List Issue)
  cacheExpiry : List (String × Nat)
  deriving Repr, DecidableEq

/-- Freshly constructed core: empty caches. -/
def emptyCache : CacheState := ⟨[], []⟩

/-- `JiraCore._is_cache_valid` (`jira/core.py` 187-191):
`time.time() < self._cache_expiry[cache_key]`, `False` when absent. -/
def isCacheValid (c : CacheState) (now : Nat) (key : String) : Bool :=
  match lookupAssoc c.cacheExpiry key with
  | none => false
  | some e => now < e

/-- `JiraCore._set_cache` (`jira/core.py` 193-202) for
`cache_type == 'issues'`. -/
def setIssuesCache (c : CacheState) (now : Nat) (key : String) (data : List Issue)
    (expiry : Option Nat) : CacheState :=
  { issuesCache := updAssoc c.issuesCache key data
  , cacheExpiry := updAssoc c.cacheExpiry key (now + pyOrDefault expiry defaultCacheTime) }

/-- The cached-read test performed before a fetch
(`jira/issues.py` 74-77): entry valid *and* present. -/
def cacheRead (c : CacheState) (now : Nat) (key : String) : Option (List Issue) :=
  if isCacheValid c now key then lookupAssoc c.issuesCache key else none

/-! ## `search_issues` with pagination
(`jira/issues.py` 69-146; textually identical in `jira_api.py` 875-952) -/

/-- One remote response to `GET /rest/api/2/search` at a given `startAt`:
a page plus the reported `total` (`data.get('total', 0)`), a non-200
status, or a raised exception (network error or malformed JSON body). -/
inductive RemoteResult where
  | ok (issues : List Issue) (total : Nat)
  | httpError
  | raised
  deriving Repr

/-- Outcome of the pagination loop, counting remote calls performed. -/
inductive FetchResult where
  | pages (issues : List Issue) (calls : Nat)
  | httpFail (calls : Nat)
  | exn (calls : Nat)
  deriving Repr, DecidableEq

/-- Fuel-indexed unrolling of the `while True` pagination loop
(`jira/issues.py` 93-132): fetch the page at `startAt`, extend the
accumulator, and stop when the page is empty, when the accumulator has
reached `max_results`, or when the reported total is exhausted; a non-200
response aborts with `[]`, an exception propagates to the enclosing
`except`.  Each iteration that continues adds at least one issue while
staying strictly below `max_results`, so fuel `max_results + 1` is never
exhausted (`fetchPages_fuel_irrelevant`); the fuel-0 default is a dead
branch, recognizable by `calls = 0`. -/
def fetchPagesF (remote : Nat → RemoteResult) (maxResults : Nat) :
    Nat → List Issue → Nat → FetchResult
  | 0, _, _ => .exn 0
  | fuel + 1, acc, startAt =>
      match remote startAt with
      | .httpError => .httpFail 1
      | .raised => .exn 1
      | .ok issues total =>
          if issues.length = 0 ∨ maxResults ≤ acc.length + issues.length
              ∨ total ≤ startAt + issues.length then
            .pages (acc ++ issues) 1
          else
            match fetchPagesF remote maxResults fuel (acc ++ issues)
                (startAt + issues.length) with
            | .pages r n => .pages r (n + 1)
            | .httpFail n => .httpFail (n + 1)
            | .exn n => .exn (n + 1)

/-- The pagination loop entered with an empty accumulator at `start_at = 0`
(`jira/issues.py` 90-91). -/
def fetchPages (remote : Nat → RemoteResult) (maxResults : Nat) : FetchResult :=
  fetchPagesF remote maxResults (maxResults + 1) [] 0

/-- Number of remote calls recorded in a fetch outcome. -/
def FetchResult.calls : FetchResult → Nat
  | .pages _ n => n
  | .httpFail n => n
  | .exn n => n

/-- What a `search_issues` call returns, together with the cache state it
leaves behind and the number of remote requests it performed. -/
structure SearchOut where
  result : List Issue
  cache : CacheState
  remoteCalls : Nat
  deriving Repr

/-- `'updated >=' in jql or 'created >=' in jql`
(`jira/issues.py` 74 and 139). -/
def timeSensitive (jql : String) : Bool :=
  strHasSub "updated >=" jql || strHasSub "created >=" jql

/-- `cache_key = f"jql_{jql}_{fields}_{max_results}_{expand}"`
(`jira/issues.py` 71). -/
def searchCacheKey (jql fields : String) (maxResults : Nat) (expand : String) : String :=
  "jql_" ++ jql ++ "_" ++ fields ++ "_" ++ Nat.repr maxResults ++ "_" ++ expand

/-- `IssueHandler.search_issues` (`jira/issues.py` 69-146): serve from
the cache only when `use_cache` holds, the query is not time-sensitive,
and a valid entry exists; otherwise fetch with pagination, truncate to
`max_results`, and cache the result only for non-time-sensitive queries.
Failures return `[]` and leave the cache untouched. -/
def searchIssues (configured : Bool) (remote : Nat → RemoteResult) (now : Nat)
    (jql fields : String) (maxResults : Nat) (expand : String)
    (useCache : Bool) (expiry : Option Nat) (c : CacheState) : SearchOut :=
  let cacheKey := searchCacheKey jql fields maxResults expand
  if useCache && !(timeSensitive jql) && isCacheValid c now cacheKey
      && (lookupAssoc c.issuesCache cacheKey).isSome then
    { result := (lookupAssoc c.issuesCache cacheKey).getD [], cache := c, remoteCalls := 0 }
  else if !configured then
    { result := [], cache := c, remoteCalls := 0 }
  else
    match fetchPages remote maxResults with
    | .pages all n =>
        let truncated := if maxResults < all.length then all.take maxResults else all
        if useCache && !(timeSensitive jql) then
          { result := truncated
          , cache := setIssuesCache c now cacheKey truncated expiry
          , remoteCalls := n }
        else
          { result := truncated, cache := c, remoteCalls := n }
    | .httpFail n => { result := [], cache := c, remoteCalls := n }
    | .exn n => { result := [], cache := c, remoteCalls := n }

/-- `StatisticsHandler.find_reopened_bugs_by_jql` (`jira/statistics.py`
428-535) as a pipeline: fetch up to 200 bugs with changelog
(`use_cache=False`), then annotate the reopens; a failed or empty fetch
yields `[]`. -/
def findReopenedBugsByJql (configured : Bool) (remote : Nat → RemoteResult) (now : Nat)
    (jql : String) (c : CacheState) : List ReopenCandidate :=
  findReopenCandidates statsFromStates statsToStates
    (searchIssues configured remote now jql
      "key,summary,status,assignee,reporter,issuetype,priority,created,updated"
      200 "changelog" false none c).result

/-- The issue fetch of `get_project_statistics` (`jira/statistics.py`
47-54): up to 500 issues, `use_cache=False`. -/
def statisticsIssueFetch (configured : Bool) (remote : Nat → RemoteResult) (now : Nat)
    (jql : String) (c : CacheState) : List Issue :=
  (searchIssues configured remote now jql
    "key,summary,status,assignee,reporter,issuetype,priority,created,updated,comment"
    500 "" false (some 300) c).result

/-- The per-project loop of `check_reopened_bugs` (`app.py` 116-123):
fetch each watched project's reopened bugs and extend the list. -/
def collectReopenedBugs (fetch : String → List ReopenCandidate) :
    List String → List ReopenCandidate
  | [] => []
  | p :: rest => fetch p ++ collectReopenedBugs fetch rest

/-! ## Overdue / upcoming due-date windows (`jira/issues.py` 284-315)

The date filtering lives in the JQL strings
(`duedate < "<today>"`, `duedate >= "<today>" AND duedate <= "<future>"`)
and is evaluated by the remote gateway, an external collaborator (spec
section 6).  The evaluators below apply the standard JQL meaning of the
queries those lines build; due dates are day numbers, since ISO date
strings compare chronologically. -/

/-- The `status in ('To Do', 'In Progress')` allow-list appended to every
detector query (`jira/issues.py` 291 and 308). -/
def actionableStatus (s : String) : Bool :=
  s == "To Do" || s == "In Progress"

/-- Gateway evaluation of the overdue query built at `jira/issues.py`
289-292: `duedate < "<today>"`, actionable status, watched project. -/
def overdueQueryEval (today : Nat) (projects : List String) (i : Issue) : Bool :=
  match i.dueDay with
  | some d => decide (d < today) && actionableStatus i.status && projects.contains i.projectKey
  | none => false

/-- Gateway evaluation of the upcoming-deadline query built at
`jira/issues.py` 305-309: `duedate >= "<today>" AND duedate <= "<future>"`
with `future = today + days`. -/
def upcomingQueryEval (today days : Nat) (projects : List String) (i : Issue) : Bool :=
  match i.dueDay with
  | some d => decide (today ≤ d) && decide (d ≤ today + days)
      && actionableStatus i.status && projects.contains i.projectKey
  | none => false

/-- `IssueHandler.find_overdue_issues` (`jira/issues.py` 284-298) against
a remote issue set: the gateway filters by the query, the handler drops
already-notified issues. -/
def findOverdueIssues (today : Nat) (projects : List String) (remoteIssues : List Issue)
    (L : Ledger) : List Issue :=
  filterUnnotifiedIssues (remoteIssues.filter (overdueQueryEval today projects)) L

/-- `IssueHandler.find_upcoming_deadlines` (`jira/issues.py` 300-315)
against a remote issue set. -/
def findUpcomingDeadlines (today days : Nat) (projects : List String)
    (remoteIssues : List Issue) (L : Ledger) : List Issue :=
  filterUnnotifiedIssues (remoteIssues.filter (upcomingQueryEval today days projects)) L

/-! ## Multi-project statistics aggregation (`app.py` 1261-1358) -/

/-- Per-assignee bug tally `{'total': _, 'reopened': _}`
(`app.py` 1306-1314). -/
structure BugStat where
  total : Int
  reopened : Int
  deriving Repr, DecidableEq

/-- Component-wise addition, as performed by the aggregation loop. -/
instance : Add BugStat :=
  ⟨fun a b => ⟨a.total + b.total, a.reopened + b.reopened⟩⟩

/-- Component-wise addition is associative and commutative. -/
instance : AddCommSemigroup BugStat where
  add := (· + ·)
  add_assoc a b c := by
    obtain ⟨x1, y1⟩ := a
    obtain ⟨x2, y2⟩ := b
    obtain ⟨x3, y3⟩ := c
    show BugStat.mk (x1 + x2 + x3) (y1 + y2 + y3)
      = BugStat.mk (x1 + (x2 + x3)) (y1 + (y2 + y3))
    rw [Int.add_assoc, Int.add_assoc]
  add_comm a b := by
    obtain ⟨x1, y1⟩ := a
    obtain ⟨x2, y2⟩ := b
    show BugStat.mk (x1 + x2) (y1 + y2) = BugStat.mk (x2 + x1) (y2 + y1)
    rw [Int.add_comm x1, Int.add_comm y1]

/-- Python `dict[name] += v` with insert-at-end for new keys, on an
insertion-ordered association list (loop bodies at `app.py` 1299-1303 and
1306-1314). -/
def bump {β : Type} [Add β] : List (String × β) → String → β → List (String × β)
  | [], n, v => [(n, v)]
  | (k, w) :: t, n, v => if k = n then (k, w + v) :: t else (k, w) :: bump t n v

/-- Python `name in map` on the association map. -/
def keyMem {β : Type} (m : List (String × β)) (n : String) : Bool :=
  m.any fun e => e.1 == n

/-- Folding one per-actor list into the accumulator map, entry by entry
(the `for ... in project_stats.get(...)` loops of `app.py` 1298-1314). -/
def mergeCounts {β : Type} [Add β] : List (String × β) → List (String × β) → List (String × β)
  | acc, [] => acc
  | acc, (n, v) :: rest => mergeCounts (bump acc n v) rest

/-- The aggregated record of `get_group_statistics` (`app.py` 1262-1276),
restricted to the fields the merge covers: summed numeric counters and
the two per-actor maps. -/
structure AggStats where
  totalIssues : Int
  completedCount : Int
  reopenedCount : Int
  reopeners : List (String × Int)
  assigneeBugStats : List (String × BugStat)
  deriving Repr, DecidableEq

/-- The combine operation performed by one iteration of the aggregation
loop (`app.py` 1293-1314): numeric counters sum, per-actor maps merge by
key-wise addition with insertion order preserved. -/
def combineStats (a b : AggStats) : AggStats :=
  { totalIssues := a.totalIssues + b.totalIssues
  , completedCount := a.completedCount + b.completedCount
  , reopenedCount := a.reopenedCount + b.reopenedCount
  , reopeners := mergeCounts a.reopeners b.reopeners
  , assigneeBugStats := mergeCounts a.assigneeBugStats b.assigneeBugStats }

/-- Python `sorted(l, key=f, reverse=True)`: stable descending sort. -/
def sortDescBy {β : Type} (f : β → Int) (l : List β) : List β :=
  l.mergeSort fun x y => decide (f y ≤ f x)

/-- `aggregated_stats["reopeners"]` (`app.py` 1338-1342): the merged map
sorted descending by count — re-derived from the map, not concatenated
from per-project rankings. -/
def deriveReopenerRanking (m : List (String × Int)) : List (String × Int) :=
  sortDescBy (fun e => e.2) m

/-- `aggregated_stats["assignee_bug_stats"]` (`app.py` 1344-1348):
sorted descending by total. -/
def deriveAssigneeRanking (m : List (String × BugStat)) : List (String × BugStat) :=
  sortDescBy (fun e => e.2.total) m

/-! ## Concrete scenario data -/

/-- The spec's first example history: Open→InReview, InReview→Done, Done→ToDo. -/
def histReopened : List History :=
  [ ⟨"100", "2025-01-01T09:00:00.000+0000", "alice", [⟨"status", "Open", "InReview"⟩]⟩
  , ⟨"101", "2025-01-01T10:00:00.000+0000", "bob", [⟨"status", "InReview", "Done"⟩]⟩
  , ⟨"102", "2025-01-01T11:00:00.000+0000", "carol", [⟨"status", "Done", "ToDo"⟩]⟩ ]

/-- The spec's second example history: Open→InProgress only. -/
def histNotReopened : List History :=
  [ ⟨"200", "2025-01-02T09:00:00.000+0000", "dave", [⟨"status", "Open", "InProgress"⟩]⟩ ]

/-- First reopen timestamp of the double-reopen scenario. -/
def reopenT1 : String := "2025-01-01T08:00:00.000+0000"

/-- Second, chronologically later reopen timestamp of the same issue. -/
def reopenT2 : String := "2025-01-02T09:00:00.000+0000"

/-- A bug whose changelog contains two qualifying reopen transitions,
at `reopenT1` and later again at `reopenT2`. -/
def bugTwoReopens : Issue :=
  { key := "P-1", issuetype := "Bug", projectKey := "P", status := "To Do"
  , dueDay := none, comments := []
  , histories :=
      [ ⟨"300", reopenT1, "alice", [⟨"status", "Done", "To Do"⟩]⟩
      , ⟨"301", reopenT2, "bob", [⟨"status", "Done", "To Do"⟩]⟩ ] }

/-- The same bug as seen when only the later transition is in the
scanned changelog. -/
def bugLaterReopenOnly : Issue :=
  { key := "P-1", issuetype := "Bug", projectKey := "P", status := "To Do"
  , dueDay := none, comments := []
  , histories := [ ⟨"301", reopenT2, "bob", [⟨"status", "Done", "To Do"⟩]⟩ ] }

/-- Ledger holding the record of the first reopen's delivered notification. -/
def ledgerFirstReopen : Ledger :=
  [ ⟨"bugs", reopenKey "P-1" reopenT1, "reopened: from Done to To Do by alice"⟩ ]

/-- Date-parse oracle for concrete scenarios: every date string parses
and normalizes to itself. -/
def parseDateId : String → Option String := fun s => some s

/-- An actionable issue due on day 10, for the overdue-boundary witness. -/
def demoIssueDueToday : Issue :=
  { key := "D-1", issuetype := "Task", projectKey := "P", status := "To Do"
  , dueDay := some 10, comments := [], histories := [] }

/-- A non-bug issue with one fresh comment and one fresh actionable
status change, used to exercise the detection cycles. -/
def demoIssue : Issue :=
  { key := "N-1", issuetype := "Task", projectKey := "P", status := "To Do"
  , dueDay := some 9
  , comments := [⟨"c1", "eve", "hello", "2025-01-01T00:00:00.000+0000"⟩]
  , histories := [⟨"500", "2025-01-01T01:00:00.000+0000", "frank",
      [⟨"status", "To Do", "In Progress"⟩]⟩] }

/-! ## Theorems -/

/-- C5: with the configured review/done/closed-like `from_states` and
open/todo/in-progress-like `to_states` (`jira/statistics.py` 476-477) and
case-insensitive substring matching, the history
[Open→InReview, InReview→Done, Done→ToDo] is classified as reopened with
transition Done→ToDo, and [Open→InProgress] alone as not reopened. -/
theorem reopen_matcher_classification :
    matchReopen statsFromStates statsToStates histReopened =
      some ⟨"Done", "ToDo", "carol", "2025-01-01T11:00:00.000+0000"⟩
    ∧ matchReopen statsFromStates statsToStates histNotReopened = none := by
  constructor <;> decide

/-- Writing one key of an association list leaves that key bound to the
written value. -/
theorem lookupAssoc_updAssoc_self {β : Type} (m : List (String × β)) (k : String) (v : β) :
    lookupAssoc (updAssoc m k v) k = some v := by
  induction m with
  | nil => simp [updAssoc, lookupAssoc]
  | cons p t ih =>
      obtain ⟨a, b⟩ := p
      by_cases h : a = k
      · simp [updAssoc, lookupAssoc, h]
      · simp [updAssoc, lookupAssoc, h, ih]

/-- C3 counterexample: an entry stored with `ttl=0` is *not* immediately
expired — the very next validity check (same instant) reports it valid
and a read finds it, because `expiry or self._default_cache_time`
treats `0` as unset (`jira/core.py` 202). -/
theorem ttl_zero_not_immediately_expired :
    isCacheValid (setIssuesCache emptyCache 0 "k" [] (some 0)) 0 "k" = true
    ∧ cacheRead (setIssuesCache emptyCache 0 "k" [] (some 0)) 0 "k" = some [] := by
  constructor <;> decide

/-- C3 amended: `ttl=0` falls back to the default TTL of 1800 seconds
(valid strictly before `store + 1800`, expired from then on), and for
every entry stored with positive `ttl=e`, any validity check or read at
or after `e` seconds past the store time reports expired / not found. -/
theorem ttl_cache_expiry (c : CacheState) (now : Nat) (key : String)
    (data : List Issue) (e t t0 : Nat) (he : 0 < e) (ht : now + e ≤ t)
    (ht0 : t0 < now + defaultCacheTime) :
    isCacheValid (setIssuesCache c now key data (some 0)) (now + defaultCacheTime) key = false
    ∧ isCacheValid (setIssuesCache c now key data (some 0)) t0 key = true
    ∧ isCacheValid (setIssuesCache c now key data (some e)) t key = false
    ∧ cacheRead (setIssuesCache c now key data (some e)) t key = none := by
  have hpe : pyOrDefault (some e) defaultCacheTime = e := by
    simp [pyOrDefault, Nat.pos_iff_ne_zero.mp he]
  have h0 : lookupAssoc (updAssoc c.cacheExpiry key (now + defaultCacheTime)) key
      = some (now + defaultCacheTime) := by
    simpa [pyOrDefault] using
      lookupAssoc_updAssoc_self c.cacheExpiry key (now + pyOrDefault (some 0) defaultCacheTime)
  have hsome : lookupAssoc (updAssoc c.cacheExpiry key (now + e)) key = some (now + e) := by
    simpa [hpe] using
      lookupAssoc_updAssoc_self c.cacheExpiry key (now + pyOrDefault (some e) defaultCacheTime)
  refine ⟨?_, ?_, ?_, ?_⟩
  · simp [isCacheValid, setIssuesCache, pyOrDefault, h0]
  · simp [isCacheValid, setIssuesCache, pyOrDefault, h0, ht0]
  · simp [isCacheValid, setIssuesCache, hpe, hsome, Nat.not_lt.mpr ht]
  · simp [cacheRead, isCacheValid, setIssuesCache, hpe, hsome, Nat.not_lt.mpr ht]

/-- Witness for `ttl_cache_expiry` at store time 7, `ttl=5`, read at 12,
plus the `ttl=0` entry checked at 7 and at 7+1800. -/
theorem ttl_cache_expiry_witness :
    isCacheValid (setIssuesCache emptyCache 7 "k" [] (some 0)) (7 + defaultCacheTime) "k" = false
    ∧ isCacheValid (setIssuesCache emptyCache 7 "k" [] (some 0)) 7 "k" = true
    ∧ isCacheValid (setIssuesCache emptyCache 7 "k" [] (some 5)) 12 "k" = false
    ∧ cacheRead (setIssuesCache emptyCache 7 "k" [] (some 5)) 12 "k" = none :=
  ttl_cache_expiry emptyCache 7 "k" [] 5 12 7 (by decide) (by decide) (by decide)

/-- C6 counterexample: for the bug `bugTwoReopens`, whose changelog holds a
qualifying reopen at `reopenT1` and a second, later qualifying reopen at
`reopenT2`, the detector annotates only the first transition
(first-match-wins scan), and a cycle whose ledger already records the
first event's key emits zero events — the later transition is *not*
emitted as a new event even though its time-qualified key was never
recorded. -/
theorem reopen_second_event_suppressed :
    findReopenCandidates statsFromStates statsToStates [bugTwoReopens] =
      [⟨"P-1", some reopenT1, "Done", "To Do", "alice"⟩]
    ∧ (reopenedBugCycle (fun _ _ => true) parseDateId "2025-01-01" "2025-01-02"
        [bugTwoReopens] ledgerFirstReopen).1 = [] := by
  constructor <;> decide

/-- C6 amended: the ledger key `<issueKey>-reopen-<occurredAt>` is
time-qualified — reopen events of one issue at distinct times get distinct
keys, so marking the earlier event never suppresses the later one at the
ledger; but since the matcher returns only the first qualifying transition
of the scanned changelog, a later reopen is emitted only once the earlier
transition is no longer in the scanned history (concrete third conjunct:
with only the later transition in the changelog, the cycle emits it even
though the earlier event's key is recorded). -/
theorem reopen_key_time_qualified (K t1 t2 r : String) (L : Ledger) (h : t1 ≠ t2) :
    reopenKey K t1 ≠ reopenKey K t2
    ∧ wasIssueNotified (markIssueNotified L "bugs" (reopenKey K t1) r) "bugs" (reopenKey K t2)
        = wasIssueNotified L "bugs" (reopenKey K t2)
    ∧ (reopenedBugCycle (fun _ _ => true) parseDateId "2025-01-02" "2025-01-03"
        [bugLaterReopenOnly] ledgerFirstReopen).1 = [("bugs", reopenKey "P-1" reopenT2)] := by
  have hne : reopenKey K t1 ≠ reopenKey K t2 := by
    intro hEq
    apply h
    have hdata : (K ++ "-reopen-" ++ t1).data = (K ++ "-reopen-" ++ t2).data :=
      congrArg String.data hEq
    simp only [String.data_append] at hdata
    exact String.ext (List.append_cancel_left hdata)
  refine ⟨hne, ?_, by decide⟩
  simp [wasIssueNotified, markIssueNotified, List.any_cons, hne]

/-- Witness for `reopen_key_time_qualified` with the two concrete reopen
timestamps. -/
theorem reopen_key_time_qualified_witness :
    reopenKey "P-1" reopenT1 ≠ reopenKey "P-1" reopenT2
    ∧ wasIssueNotified (markIssueNotified [] "bugs" (reopenKey "P-1" reopenT1) "r") "bugs"
        (reopenKey "P-1" reopenT2)
        = wasIssueNotified [] "bugs" (reopenKey "P-1" reopenT2)
    ∧ (reopenedBugCycle (fun _ _ => true) parseDateId "2025-01-02" "2025-01-03"
        [bugLaterReopenOnly] ledgerFirstReopen).1 = [("bugs", reopenKey "P-1" reopenT2)] :=
  reopen_key_time_qualified "P-1" reopenT1 reopenT2 "r" [] (by decide)

/-- Marking one record preserves every positive ledger membership test. -/
theorem wasIssueNotified_mark (L : Ledger) (cat k c2 k2 r : String)
    (h : wasIssueNotified L cat k = true) :
    wasIssueNotified (markIssueNotified L c2 k2 r) cat k = true := by
  simp only [wasIssueNotified, markIssueNotified, List.any_cons] at *
  simp [h]

/-- A fresh mark is visible to `was_issue_notified`. -/
theorem wasIssueNotified_mark_self (L : Ledger) (cat k r : String) :
    wasIssueNotified (markIssueNotified L cat k r) cat k = true := by
  simp [wasIssueNotified, markIssueNotified]

/-- The notify loop never erases a ledger record. -/
theorem notifyLoop_preserves {α : Type} (send : String → String → Bool) (cat : String)
    (keyOf reasonOf : α → String) (xs : List α) :
    ∀ (L : Ledger) (c k : String), wasIssueNotified L c k = true →
      wasIssueNotified (notifyLoop send cat keyOf reasonOf xs L).2 c k = true := by
  induction xs with
  | nil => intro L c k h; simpa [notifyLoop] using h
  | cons x rest ih =>
      intro L c k h
      simp only [notifyLoop]
      apply ih
      by_cases hs : send cat (keyOf x) = true
      · simpa [hs] using wasIssueNotified_mark L c k cat (keyOf x) (reasonOf x) h
      · simpa [hs] using h

/-- With an always-successful sink, the notify loop marks every processed
event's key. -/
theorem notifyLoop_marks {α : Type} (send : String → String → Bool) (cat : String)
    (keyOf reasonOf : α → String) (hsend : ∀ c k, send c k = true) (xs : List α) :
    ∀ (L : Ledger) (x : α), x ∈ xs →
      wasIssueNotified (notifyLoop send cat keyOf reasonOf xs L).2 cat (keyOf x) = true := by
  induction xs with
  | nil => intro L x hx; cases hx
  | cons y rest ih =>
      intro L x hx
      simp only [notifyLoop]
      rcases List.mem_cons.mp hx with h | h
      · subst h
        apply notifyLoop_preserves
        simp [hsend, wasIssueNotified_mark_self]
      · exact ih _ x h

/-- Every record present after the notify loop was either present before,
or belongs to an event the loop attempted whose send returned true. -/
theorem notifyLoop_ledger_spec {α : Type} (send : String → String → Bool) (cat : String)
    (keyOf reasonOf : α → String) (xs : List α) :
    ∀ (L : Ledger) (e : LedgerEntry), e ∈ (notifyLoop send cat keyOf reasonOf xs L).2 →
      e ∈ L ∨ ((e.category, e.key) ∈ (notifyLoop send cat keyOf reasonOf xs L).1
        ∧ send e.category e.key = true) := by
  induction xs with
  | nil => intro L e he; exact Or.inl (by simpa [notifyLoop] using he)
  | cons x rest ih =>
      intro L e he
      simp only [notifyLoop] at he ⊢
      rcases ih _ e he with h | ⟨hm, hs⟩
      · by_cases hsend : send cat (keyOf x) = true
        · simp only [hsend, if_true, markIssueNotified] at h
          rcases List.mem_cons.mp h with he1 | he2
          · subst he1
            exact Or.inr ⟨List.mem_cons_self _ _, hsend⟩
          · exact Or.inl he2
        · simp only [hsend, if_false, Bool.false_eq_true] at h
          exact Or.inl (by simpa [eq_false_of_ne_true hsend] using h)
      · exact Or.inr ⟨List.mem_cons_of_mem _ hm, hs⟩

/-- The notify loop attempts exactly the events it was handed, in order. -/
theorem notifyLoop_emitted {α : Type} (send : String → String → Bool) (cat : String)
    (keyOf reasonOf : α → String) (xs : List α) :
    ∀ L, (notifyLoop send cat keyOf reasonOf xs L).1 = xs.map fun x => (cat, keyOf x) := by
  induction xs with
  | nil => intro L; rfl
  | cons x rest ih =>
      intro L
      simp only [notifyLoop, List.map_cons]
      rw [ih]

/-- If every snapshot issue is recorded in the ledger, the shared
`'issues'` filter returns nothing. -/
theorem filterUnnotified_eq_nil (snap : List Issue) (L : Ledger)
    (h : ∀ i ∈ snap, wasIssueNotified L "issues" i.key = true) :
    filterUnnotifiedIssues snap L = [] := by
  rw [filterUnnotifiedIssues, List.filter_eq_nil_iff]
  intro i hi
  simp [h i hi]

/-- After a fully delivered simple cycle, every snapshot issue is in the
ledger under `'issues'`. -/
theorem simpleCycle_marks_all (send : String → String → Bool) (reason : String)
    (hsend : ∀ c k, send c k = true) (snap : List Issue) (L : Ledger) (i : Issue)
    (hi : i ∈ snap) :
    wasIssueNotified
      (notifyLoop send "issues" Issue.key (fun _ => reason)
        (filterUnnotifiedIssues snap L) L).2 "issues" i.key = true := by
  by_cases h : wasIssueNotified L "issues" i.key = true
  · exact notifyLoop_preserves _ _ _ _ _ _ _ _ h
  · apply notifyLoop_marks _ _ _ _ hsend
    simp [filterUnnotifiedIssues, List.mem_filter, hi, eq_false_of_ne_true h]

/-- A fully delivered simple cycle followed by a second cycle on the same
snapshot: the second one attempts no notification. -/
theorem simpleCycle_second_empty (send : String → String → Bool) (reason : String)
    (hsend : ∀ c k, send c k = true) (snap : List Issue) (L : Ledger) :
    (notifyLoop send "issues" Issue.key (fun _ => reason)
      (filterUnnotifiedIssues snap
        (notifyLoop send "issues" Issue.key (fun _ => reason)
          (filterUnnotifiedIssues snap L) L).2)
      (notifyLoop send "issues" Issue.key (fun _ => reason)
        (filterUnnotifiedIssues snap L) L).2).1 = [] := by
  rw [filterUnnotified_eq_nil]
  · rfl
  · intro i hi
    exact simpleCycle_marks_all send reason hsend snap L i hi

/-- Unfolding: a bug-typed issue is skipped by the status-change loop. -/
theorem notifyStatusChanges_cons_bug (send : String → String → Bool) (i : Issue)
    (cs : List StatusChange) (rest : List (Issue × List StatusChange)) (L : Ledger)
    (hb : strHasSub "bug" (strToLower i.issuetype) = true) :
    notifyStatusChanges send ((i, cs) :: rest) L = notifyStatusChanges send rest L := by
  simp [notifyStatusChanges, hb]

/-- Unfolding: a non-bug issue runs the notify loop over its changes. -/
theorem notifyStatusChanges_cons_nonbug (send : String → String → Bool) (i : Issue)
    (cs : List StatusChange) (rest : List (Issue × List StatusChange)) (L : Ledger)
    (hb : strHasSub "bug" (strToLower i.issuetype) = false) :
    notifyStatusChanges send ((i, cs) :: rest) L =
      ((notifyLoop send "status_changes" (fun c => i.key ++ "-" ++ c.historyId)
          statusChangeReason cs L).1
        ++ (notifyStatusChanges send rest
            (notifyLoop send "status_changes" (fun c => i.key ++ "-" ++ c.historyId)
              statusChangeReason cs L).2).1,
       (notifyStatusChanges send rest
          (notifyLoop send "status_changes" (fun c => i.key ++ "-" ++ c.historyId)
            statusChangeReason cs L).2).2) := by
  simp [notifyStatusChanges, hb]

/-- The status-change outer loop never erases a ledger record. -/
theorem notifyStatusChanges_preserves (send : String → String → Bool)
    (lst : List (Issue × List StatusChange)) :
    ∀ (L : Ledger) (c k : String), wasIssueNotified L c k = true →
      wasIssueNotified (notifyStatusChanges send lst L).2 c k = true := by
  induction lst with
  | nil => intro L c k h; simpa [notifyStatusChanges] using h
  | cons p rest ih =>
      intro L c k h
      obtain ⟨i, cs⟩ := p
      by_cases hb : strHasSub "bug" (strToLower i.issuetype) = true
      · rw [notifyStatusChanges_cons_bug _ _ _ _ _ hb]
        exact ih L c k h
      · rw [notifyStatusChanges_cons_nonbug _ _ _ _ _ (eq_false_of_ne_true hb)]
        exact ih _ c k (notifyLoop_preserves _ _ _ _ _ _ _ _ h)

/-- With an always-successful sink, every change of every non-bug entry
handed to the status-change loop ends up marked. -/
theorem notifyStatusChanges_marks (send : String → String → Bool)
    (hsend : ∀ c k, send c k = true) (lst : List (Issue × List StatusChange)) :
    ∀ (L : Ledger) (i : Issue) (cs : List StatusChange) (c : StatusChange),
      (i, cs) ∈ lst → strHasSub "bug" (strToLower i.issuetype) = false → c ∈ cs →
      wasIssueNotified (notifyStatusChanges send lst L).2 "status_changes"
        (i.key ++ "-" ++ c.historyId) = true := by
  induction lst with
  | nil => intro L i cs c h; cases h
  | cons p rest ih =>
      intro L i cs c hmem hb hc
      obtain ⟨j, ds⟩ := p
      rcases List.mem_cons.mp hmem with h | h
      · cases h
        rw [notifyStatusChanges_cons_nonbug _ _ _ _ _ hb]
        apply notifyStatusChanges_preserves
        exact notifyLoop_marks _ _ _ _ hsend _ _ c hc
      · by_cases hbj : strHasSub "bug" (strToLower j.issuetype) = true
        · rw [notifyStatusChanges_cons_bug _ _ _ _ _ hbj]
          exact ih L i cs c h hb hc
        · rw [notifyStatusChanges_cons_nonbug _ _ _ _ _ (eq_false_of_ne_true hbj)]
          exact ih _ i cs c h hb hc

/-- If every entry handed to the status-change loop is a bug or has no
changes, no notification is attempted. -/
theorem notifyStatusChanges_all_skipped (send : String → String → Bool)
    (lst : List (Issue × List StatusChange)) :
    ∀ L, (∀ p ∈ lst, strHasSub "bug" (strToLower (Prod.fst p).issuetype) = true ∨ p.2 = []) →
      (notifyStatusChanges send lst L).1 = [] := by
  induction lst with
  | nil => intro L _; rfl
  | cons p rest ih =>
      intro L h
      obtain ⟨i, cs⟩ := p
      by_cases hb : strHasSub "bug" (strToLower i.issuetype) = true
      · rw [notifyStatusChanges_cons_bug _ _ _ _ _ hb]
        exact ih L fun q hq => h q (List.mem_cons_of_mem _ hq)
      · rcases h _ (List.mem_cons_self _ _) with hb1 | hcs
        · exact absurd hb1 hb
        · rw [notifyStatusChanges_cons_nonbug _ _ _ _ _ (eq_false_of_ne_true hb)]
          dsimp only at hcs
          subst hcs
          simp only [notifyLoop, List.nil_append]
          exact ih L fun q hq => h q (List.mem_cons_of_mem _ hq)

/-- Analysis of one extracted status change: the history it came from and
the guards that let it through. -/
theorem mem_statusChangesOf {stale : String → Bool} {L : Ledger} {i : Issue}
    {c : StatusChange} (hc : c ∈ statusChangesOf stale L i) :
    ∃ hh, hh ∈ i.histories ∧ c.historyId = hh.id
      ∧ wasIssueNotified L "status_changes" (i.key ++ "-" ++ hh.id) = false
      ∧ (hh.created != "" && stale hh.created) = false
      ∧ (qualifyingStatusItem hh).isSome = true := by
  simp only [statusChangesOf, List.mem_filterMap] at hc
  obtain ⟨hh, hmem, heq⟩ := hc
  by_cases h1 : wasIssueNotified L "status_changes" (i.key ++ "-" ++ hh.id) = true
  · simp [h1] at heq
  · have h1' := eq_false_of_ne_true h1
    by_cases h2 : (hh.created != "" && stale hh.created) = true
    · simp [h1', h2] at heq
    · have h2' := eq_false_of_ne_true h2
      cases hq : qualifyingStatusItem hh with
      | none => simp [h1', h2', hq] at heq
      | some it =>
          simp only [h1', h2', hq, Bool.false_eq_true, if_false, Option.some.injEq] at heq
          exact ⟨hh, hmem, by rw [← heq], h1', h2', by simp [hq]⟩

/-- Construction of one extracted status change from its history. -/
theorem statusChangesOf_has (stale : String → Bool) (L : Ledger) (i : Issue) (hh : History)
    (hmem : hh ∈ i.histories)
    (h1 : wasIssueNotified L "status_changes" (i.key ++ "-" ++ hh.id) = false)
    (h2 : (hh.created != "" && stale hh.created) = false)
    (it : ChangeItem) (hq : qualifyingStatusItem hh = some it) :
    (⟨hh.id, it.fromString, it.toString, hh.author⟩ : StatusChange)
      ∈ statusChangesOf stale L i := by
  simp only [statusChangesOf, List.mem_filterMap]
  exact ⟨hh, hmem, by simp [h1, h2, hq]⟩

/-- Every detected status-change entry is an issue of the snapshot paired
with its nonempty extracted change list. -/
theorem mem_findStatusChanges {stale : String → Bool} {L : Ledger} {snap : List Issue}
    {p : Issue × List StatusChange} (hp : p ∈ findStatusChanges stale L snap) :
    p.1 ∈ snap ∧ p.2 = statusChangesOf stale L p.1 ∧ p.2 ≠ [] := by
  simp only [findStatusChanges, List.mem_filterMap] at hp
  obtain ⟨i, hi, heq⟩ := hp
  rcases hcs : statusChangesOf stale L i with _ | ⟨c, cs⟩
  · rw [hcs] at heq
    exact absurd heq (by simp)
  · rw [hcs] at heq
    have hpe : (i, c :: cs) = p := by simpa using heq
    subst hpe
    exact ⟨hi, hcs.symm, by simp⟩

/-- An issue with a nonempty extracted change list is detected. -/
theorem findStatusChanges_has (stale : String → Bool) (L : Ledger) (snap : List Issue)
    (i : Issue) (hi : i ∈ snap) (hne : statusChangesOf stale L i ≠ []) :
    (i, statusChangesOf stale L i) ∈ findStatusChanges stale L snap := by
  simp only [findStatusChanges, List.mem_filterMap]
  refine ⟨i, hi, ?_⟩
  rcases h : statusChangesOf stale L i with _ | ⟨c, cs⟩
  · exact absurd h hne
  · rfl

/-- C1 component: a fully delivered status-change cycle followed by a
second cycle on the same snapshot attempts no notification. -/
theorem statusChangesCycle_second_empty (send : String → String → Bool)
    (hsend : ∀ c k, send c k = true) (stale : String → Bool) (snap : List Issue)
    (L : Ledger) :
    (statusChangesCycle send stale snap (statusChangesCycle send stale snap L).2).1 = [] := by
  rw [statusChangesCycle]
  apply notifyStatusChanges_all_skipped
  intro p hp
  obtain ⟨i, cs⟩ := p
  by_cases hb : strHasSub "bug" (strToLower i.issuetype) = true
  · exact Or.inl hb
  · right
    obtain ⟨hi, hcs, hne⟩ := mem_findStatusChanges hp
    exfalso
    obtain ⟨c, hc⟩ := List.exists_mem_of_ne_nil _ hne
    dsimp only at hi hcs hne hc
    rw [hcs] at hc
    obtain ⟨hh, hhmem, _, hnot1, hfresh, hq⟩ := mem_statusChangesOf hc
    have hnotL : wasIssueNotified L "status_changes" (i.key ++ "-" ++ hh.id) = false := by
      by_contra hw
      have hw' : wasIssueNotified L "status_changes" (i.key ++ "-" ++ hh.id) = true := by
        simpa using hw
      have := notifyStatusChanges_preserves send (findStatusChanges stale L snap) L _ _ hw'
      rw [← statusChangesCycle] at this
      simp [this] at hnot1
    obtain ⟨it, hit⟩ := Option.isSome_iff_exists.mp hq
    have hintro := statusChangesOf_has stale L i hh hhmem hnotL hfresh it hit
    have hne1 : statusChangesOf stale L i ≠ [] := by
      intro hnil; rw [hnil] at hintro; cases hintro
    have hdet := findStatusChanges_has stale L snap i hi hne1
    have hmark := notifyStatusChanges_marks send hsend _ L i _ _ hdet
      (eq_false_of_ne_true hb) hintro
    rw [← statusChangesCycle] at hmark
    simp [hmark] at hnot1

/-- Unfolding of the comment outer loop at a cons. -/
theorem notifyNewComments_cons (send : String → String → Bool) (i : Issue)
    (cs : List Comment) (rest : List (Issue × List Comment)) (L : Ledger) :
    notifyNewComments send ((i, cs) :: rest) L =
      ((notifyLoop send "comments" (fun c => i.key ++ "-" ++ c.id)
          (fun _ => "new comment") cs L).1
        ++ (notifyNewComments send rest
            (notifyLoop send "comments" (fun c => i.key ++ "-" ++ c.id)
              (fun _ => "new comment") cs L).2).1,
       (notifyNewComments send rest
          (notifyLoop send "comments" (fun c => i.key ++ "-" ++ c.id)
            (fun _ => "new comment") cs L).2).2) := by
  simp [notifyNewComments]

/-- The comment outer loop never erases a ledger record. -/
theorem notifyNewComments_preserves (send : String → String → Bool)
    (lst : List (Issue × List Comment)) :
    ∀ (L : Ledger) (c k : String), wasIssueNotified L c k = true →
      wasIssueNotified (notifyNewComments send lst L).2 c k = true := by
  induction lst with
  | nil => intro L c k h; simpa [notifyNewComments] using h
  | cons p rest ih =>
      intro L c k h
      obtain ⟨i, cs⟩ := p
      rw [notifyNewComments_cons]
      exact ih _ c k (notifyLoop_preserves _ _ _ _ _ _ _ _ h)

/-- With an always-successful sink, every comment of every entry handed
to the comment loop ends up marked. -/
theorem notifyNewComments_marks (send : String → String → Bool)
    (hsend : ∀ c k, send c k = true) (lst : List (Issue × List Comment)) :
    ∀ (L : Ledger) (i : Issue) (cs : List Comment) (c : Comment),
      (i, cs) ∈ lst → c ∈ cs →
      wasIssueNotified (notifyNewComments send lst L).2 "comments"
        (i.key ++ "-" ++ c.id) = true := by
  induction lst with
  | nil => intro L i cs c h; cases h
  | cons p rest ih =>
      intro L i cs c hmem hc
      obtain ⟨j, ds⟩ := p
      rcases List.mem_cons.mp hmem with h | h
      · cases h
        rw [notifyNewComments_cons]
        apply notifyNewComments_preserves
        exact notifyLoop_marks _ _ _ _ hsend _ _ c hc
      · rw [notifyNewComments_cons]
        exact ih _ i cs c h hc

/-- C1 component: a fully delivered comment cycle followed by a second
cycle on the same snapshot attempts no notification. -/
theorem newCommentsCycle_second_empty (send : String → String → Bool)
    (hsend : ∀ c k, send c k = true) (cRecent : String → Bool) (snap : List Issue)
    (L : Ledger) :
    (newCommentsCycle send cRecent snap (newCommentsCycle send cRecent snap L).2).1 = [] := by
  have hnil : findNewComments cRecent (newCommentsCycle send cRecent snap L).2 snap = [] := by
    rw [findNewComments, List.filterMap_eq_nil_iff]
    intro i hi
    have hcz : newCommentsOf cRecent (newCommentsCycle send cRecent snap L).2 i = [] := by
      rw [newCommentsOf, List.filter_eq_nil_iff]
      intro c hc
      by_cases hne : (c.created != "") = true
      · by_cases hrec : cRecent c.created = true
        · have hmarked : wasIssueNotified (newCommentsCycle send cRecent snap L).2 "comments"
              (i.key ++ "-" ++ c.id) = true := by
            by_cases hw : wasIssueNotified L "comments" (i.key ++ "-" ++ c.id) = true
            · rw [newCommentsCycle]
              exact notifyNewComments_preserves _ _ _ _ _ hw
            · have hcmem : c ∈ newCommentsOf cRecent L i := by
                rw [newCommentsOf, List.mem_filter]
                exact ⟨hc, by simp [eq_false_of_ne_true hw, hne, hrec]⟩
              have hne1 : newCommentsOf cRecent L i ≠ [] := by
                intro hnil; rw [hnil] at hcmem; cases hcmem
              have hdet : (i, newCommentsOf cRecent L i) ∈ findNewComments cRecent L snap := by
                simp only [findNewComments, List.mem_filterMap]
                refine ⟨i, hi, ?_⟩
                rcases h : newCommentsOf cRecent L i with _ | ⟨d, ds⟩
                · exact absurd h hne1
                · rfl
              rw [newCommentsCycle]
              exact notifyNewComments_marks send hsend _ L i _ c hdet hcmem
          simp [hmarked]
        · simp [eq_false_of_ne_true hrec]
      · simp [eq_false_of_ne_true hne]
    rw [hcz]
  rw [newCommentsCycle, hnil]
  rfl

/-- Unfolding: a candidate without `reopen_time` is skipped. -/
theorem checkReopenedBugs_cons_noTime (send : String → String → Bool)
    (parseDate : String → Option String) (y t : String) (b : ReopenCandidate)
    (rest : List ReopenCandidate) (L : Ledger) (h : b.reopenTime = none) :
    checkReopenedBugs send parseDate y t (b :: rest) L =
      checkReopenedBugs send parseDate y t rest L := by
  simp [checkReopenedBugs, h]

/-- Unfolding: a candidate whose reopen date does not parse is skipped. -/
theorem checkReopenedBugs_cons_noParse (send : String → String → Bool)
    (parseDate : String → Option String) (y t : String) (b : ReopenCandidate)
    (rest : List ReopenCandidate) (L : Ledger) (ts : String)
    (h : b.reopenTime = some ts) (hp : parseDate (dateOf ts) = none) :
    checkReopenedBugs send parseDate y t (b :: rest) L =
      checkReopenedBugs send parseDate y t rest L := by
  simp [checkReopenedBugs, h, hp]

/-- Unfolding: a candidate outside the date window is skipped. -/
theorem checkReopenedBugs_cons_outOfRange (send : String → String → Bool)
    (parseDate : String → Option String) (y t : String) (b : ReopenCandidate)
    (rest : List ReopenCandidate) (L : Ledger) (ts d : String)
    (h : b.reopenTime = some ts) (hp : parseDate (dateOf ts) = some d)
    (hr : (strLtB d y || strLtB t d) = true) :
    checkReopenedBugs send parseDate y t (b :: rest) L =
      checkReopenedBugs send parseDate y t rest L := by
  simp [checkReopenedBugs, h, hp, hr]

/-- Unfolding: a candidate whose key is already in the ledger is skipped. -/
theorem checkReopenedBugs_cons_already (send : String → String → Bool)
    (parseDate : String → Option String) (y t : String) (b : ReopenCandidate)
    (rest : List ReopenCandidate) (L : Ledger) (ts d : String)
    (h : b.reopenTime = some ts) (hp : parseDate (dateOf ts) = some d)
    (hr : (strLtB d y || strLtB t d) = false)
    (hn : wasIssueNotified L "bugs" (reopenKey b.issueKey ts) = true) :
    checkReopenedBugs send parseDate y t (b :: rest) L =
      checkReopenedBugs send parseDate y t rest L := by
  simp [checkReopenedBugs, h, hp, hr, hn]

/-- Unfolding: an unsuppressed in-window candidate is attempted, and
marked exactly when the sink succeeds. -/
theorem checkReopenedBugs_cons_fresh (send : String → String → Bool)
    (parseDate : String → Option String) (y t : String) (b : ReopenCandidate)
    (rest : List ReopenCandidate) (L : Ledger) (ts d : String)
    (h : b.reopenTime = some ts) (hp : parseDate (dateOf ts) = some d)
    (hr : (strLtB d y || strLtB t d) = false)
    (hn : wasIssueNotified L "bugs" (reopenKey b.issueKey ts) = false) :
    checkReopenedBugs send parseDate y t (b :: rest) L =
      (("bugs", reopenKey b.issueKey ts) ::
        (checkReopenedBugs send parseDate y t rest
          (if send "bugs" (reopenKey b.issueKey ts) then
            markIssueNotified L "bugs" (reopenKey b.issueKey ts)
              ("reopened: from " ++ b.reopenFrom ++ " to " ++ b.reopenTo
                ++ " by " ++ b.reopenBy)
          else L)).1,
       (checkReopenedBugs send parseDate y t rest
          (if send "bugs" (reopenKey b.issueKey ts) then
            markIssueNotified L "bugs" (reopenKey b.issueKey ts)
              ("reopened: from " ++ b.reopenFrom ++ " to " ++ b.reopenTo
                ++ " by " ++ b.reopenBy)
          else L)).2) := by
  simp [checkReopenedBugs, h, hp, hr, hn]

/-- The reopen notify loop never erases a ledger record. -/
theorem checkReopenedBugs_preserves (send : String → String → Bool)
    (parseDate : String → Option String) (y t : String) (cands : List ReopenCandidate) :
    ∀ (L : Ledger) (c k : String), wasIssueNotified L c k = true →
      wasIssueNotified (checkReopenedBugs send parseDate y t cands L).2 c k = true := by
  induction cands with
  | nil => intro L c k h; simpa [checkReopenedBugs] using h
  | cons b rest ih =>
      intro L c k h
      cases hb : b.reopenTime with
      | none => rw [checkReopenedBugs_cons_noTime _ _ _ _ _ _ _ hb]; exact ih L c k h
      | some ts =>
          cases hp : parseDate (dateOf ts) with
          | none =>
              rw [checkReopenedBugs_cons_noParse _ _ _ _ _ _ _ _ hb hp]
              exact ih L c k h
          | some d =>
              by_cases hr : (strLtB d y || strLtB t d) = true
              · rw [checkReopenedBugs_cons_outOfRange _ _ _ _ _ _ _ _ _ hb hp hr]
                exact ih L c k h
              · have hr' := eq_false_of_ne_true hr
                by_cases hn : wasIssueNotified L "bugs" (reopenKey b.issueKey ts) = true
                · rw [checkReopenedBugs_cons_already _ _ _ _ _ _ _ _ _ hb hp hr' hn]
                  exact ih L c k h
                · rw [checkReopenedBugs_cons_fresh _ _ _ _ _ _ _ _ _ hb hp hr'
                    (eq_false_of_ne_true hn)]
                  apply ih
                  by_cases hs : send "bugs" (reopenKey b.issueKey ts) = true
                  · simpa [hs] using wasIssueNotified_mark L c k _ _ _ h
                  · simpa [hs] using h

/-- With an always-successful sink, every candidate that passes the
non-ledger guards ends the cycle marked under its time-qualified key. -/
theorem checkReopenedBugs_marks (send : String → String → Bool)
    (hsend : ∀ c k, send c k = true) (parseDate : String → Option String) (y t : String)
    (cands : List ReopenCandidate) :
    ∀ (L : Ledger) (b : ReopenCandidate) (ts d : String), b ∈ cands →
      b.reopenTime = some ts → parseDate (dateOf ts) = some d →
      (strLtB d y || strLtB t d) = false →
      wasIssueNotified (checkReopenedBugs send parseDate y t cands L).2 "bugs"
        (reopenKey b.issueKey ts) = true := by
  induction cands with
  | nil => intro L b ts d hmem; cases hmem
  | cons b0 rest ih =>
      intro L b ts d hmem hts hp hr
      rcases List.mem_cons.mp hmem with h | h
      · subst h
        by_cases hn : wasIssueNotified L "bugs" (reopenKey b.issueKey ts) = true
        · rw [checkReopenedBugs_cons_already _ _ _ _ _ _ _ _ _ hts hp hr hn]
          exact checkReopenedBugs_preserves _ _ _ _ _ _ _ _ hn
        · rw [checkReopenedBugs_cons_fresh _ _ _ _ _ _ _ _ _ hts hp hr
            (eq_false_of_ne_true hn)]
          apply checkReopenedBugs_preserves
          simp [hsend, wasIssueNotified_mark_self]
      · cases hb0 : b0.reopenTime with
        | none =>
            rw [checkReopenedBugs_cons_noTime _ _ _ _ _ _ _ hb0]
            exact ih L b ts d h hts hp hr
        | some ts0 =>
            cases hp0 : parseDate (dateOf ts0) with
            | none =>
                rw [checkReopenedBugs_cons_noParse _ _ _ _ _ _ _ _ hb0 hp0]
                exact ih L b ts d h hts hp hr
            | some d0 =>
                by_cases hr0 : (strLtB d0 y || strLtB t d0) = true
                · rw [checkReopenedBugs_cons_outOfRange _ _ _ _ _ _ _ _ _ hb0 hp0 hr0]
                  exact ih L b ts d h hts hp hr
                · have hr0' := eq_false_of_ne_true hr0
                  by_cases hn0 : wasIssueNotified L "bugs" (reopenKey b0.issueKey ts0) = true
                  · rw [checkReopenedBugs_cons_already _ _ _ _ _ _ _ _ _ hb0 hp0 hr0' hn0]
                    exact ih L b ts d h hts hp hr
                  · rw [checkReopenedBugs_cons_fresh _ _ _ _ _ _ _ _ _ hb0 hp0 hr0'
                      (eq_false_of_ne_true hn0)]
                    exact ih _ b ts d h hts hp hr

/-- If every candidate that passes the non-ledger guards is already in
the ledger, the reopen notify loop attempts nothing. -/
theorem checkReopenedBugs_all_suppressed (send : String → String → Bool)
    (parseDate : String → Option String) (y t : String) (cands : List ReopenCandidate)
    (L : Ledger)
    (h : ∀ b ∈ cands, ∀ ts d, b.reopenTime = some ts → parseDate (dateOf ts) = some d →
      (strLtB d y || strLtB t d) = false →
      wasIssueNotified L "bugs" (reopenKey b.issueKey ts) = true) :
    (checkReopenedBugs send parseDate y t cands L).1 = [] := by
  induction cands with
  | nil => rfl
  | cons b rest ih =>
      have hrest := fun b' hb' => h b' (List.mem_cons_of_mem _ hb')
      cases hb : b.reopenTime with
      | none => rw [checkReopenedBugs_cons_noTime _ _ _ _ _ _ _ hb]; exact ih hrest
      | some ts =>
          cases hp : parseDate (dateOf ts) with
          | none =>
              rw [checkReopenedBugs_cons_noParse _ _ _ _ _ _ _ _ hb hp]
              exact ih hrest
          | some d =>
              by_cases hr : (strLtB d y || strLtB t d) = true
              · rw [checkReopenedBugs_cons_outOfRange _ _ _ _ _ _ _ _ _ hb hp hr]
                exact ih hrest
              · have hr' := eq_false_of_ne_true hr
                rw [checkReopenedBugs_cons_already _ _ _ _ _ _ _ _ _ hb hp hr'
                  (h b (List.mem_cons_self _ _) ts d hb hp hr')]
                exact ih hrest

/-- C1 component: a fully delivered reopened-bug cycle followed by a
second cycle against the same bug snapshot attempts no notification. -/
theorem reopenedBugCycle_second_empty (send : String → String → Bool)
    (hsend : ∀ c k, send c k = true) (parseDate : String → Option String)
    (y t : String) (bugs : List Issue) (L : Ledger) :
    (reopenedBugCycle send parseDate y t bugs
      (reopenedBugCycle send parseDate y t bugs L).2).1 = [] := by
  rw [reopenedBugCycle]
  apply checkReopenedBugs_all_suppressed
  intro b hb ts d hts hp hr
  rw [reopenedBugCycle]
  exact checkReopenedBugs_marks send hsend parseDate y t _ L b ts d hb hts hp hr

/-- C1: detector idempotence.  For each of the six detectors, if one
detection cycle runs against a fixed remote snapshot and every sink call
returns true (so every attempted event is recorded in the ledger), an
immediate second cycle of the same detector against the same unchanged
snapshot (same fetched issues, same wall-clock oracles) attempts zero
notifications. -/
theorem detector_idempotence (send : String → String → Bool)
    (hsend : ∀ c k, send c k = true) (stale cRecent : String → Bool)
    (parseDate : String → Option String) (yesterday today : String)
    (snap bugs : List Issue) (L : Ledger) :
    (newIssuesCycle send snap (newIssuesCycle send snap L).2).1 = []
    ∧ (statusChangesCycle send stale snap (statusChangesCycle send stale snap L).2).1 = []
    ∧ (newCommentsCycle send cRecent snap (newCommentsCycle send cRecent snap L).2).1 = []
    ∧ (overdueCycle send snap (overdueCycle send snap L).2).1 = []
    ∧ (upcomingCycle send snap (upcomingCycle send snap L).2).1 = []
    ∧ (reopenedBugCycle send parseDate yesterday today bugs
        (reopenedBugCycle send parseDate yesterday today bugs L).2).1 = [] :=
  ⟨simpleCycle_second_empty send "new issue" hsend snap L,
   statusChangesCycle_second_empty send hsend stale snap L,
   newCommentsCycle_second_empty send hsend cRecent snap L,
   simpleCycle_second_empty send "overdue" hsend snap L,
   simpleCycle_second_empty send "upcoming deadline" hsend snap L,
   reopenedBugCycle_second_empty send hsend parseDate yesterday today bugs L⟩

/-- Witness for `detector_idempotence`: an always-true sink, a one-issue
snapshot with a fresh comment and status change, and a one-bug reopen
snapshot. -/
theorem detector_idempotence_witness :
    (newIssuesCycle (fun _ _ => true) [demoIssue]
      (newIssuesCycle (fun _ _ => true) [demoIssue] []).2).1 = []
    ∧ (statusChangesCycle (fun _ _ => true) (fun _ => false) [demoIssue]
        (statusChangesCycle (fun _ _ => true) (fun _ => false) [demoIssue] []).2).1 = []
    ∧ (newCommentsCycle (fun _ _ => true) (fun _ => true) [demoIssue]
        (newCommentsCycle (fun _ _ => true) (fun _ => true) [demoIssue] []).2).1 = []
    ∧ (overdueCycle (fun _ _ => true) [demoIssue]
        (overdueCycle (fun _ _ => true) [demoIssue] []).2).1 = []
    ∧ (upcomingCycle (fun _ _ => true) [demoIssue]
        (upcomingCycle (fun _ _ => true) [demoIssue] []).2).1 = []
    ∧ (reopenedBugCycle (fun _ _ => true) parseDateId "2025-01-02" "2025-01-03"
        [bugLaterReopenOnly]
        (reopenedBugCycle (fun _ _ => true) parseDateId "2025-01-02" "2025-01-03"
          [bugLaterReopenOnly] []).2).1 = [] :=
  detector_idempotence (fun _ _ => true) (fun _ _ => rfl) (fun _ => false) (fun _ => true)
    parseDateId "2025-01-02" "2025-01-03" [demoIssue] [bugLaterReopenOnly] []

/-- Status-change cycle ledger provenance: every record present
afterwards was present before, or belongs to an attempted event whose
send returned true. -/
theorem notifyStatusChanges_ledger_spec (send : String → String → Bool)
    (lst : List (Issue × List StatusChange)) :
    ∀ (L : Ledger) (e : LedgerEntry), e ∈ (notifyStatusChanges send lst L).2 →
      e ∈ L ∨ ((e.category, e.key) ∈ (notifyStatusChanges send lst L).1
        ∧ send e.category e.key = true) := by
  induction lst with
  | nil => intro L e he; exact Or.inl (by simpa [notifyStatusChanges] using he)
  | cons p rest ih =>
      intro L e he
      obtain ⟨i, cs⟩ := p
      by_cases hb : strHasSub "bug" (strToLower i.issuetype) = true
      · rw [notifyStatusChanges_cons_bug _ _ _ _ _ hb] at he ⊢
        exact ih L e he
      · rw [notifyStatusChanges_cons_nonbug _ _ _ _ _ (eq_false_of_ne_true hb)] at he ⊢
        rcases ih _ e he with h1 | ⟨hm, hs⟩
        · rcases notifyLoop_ledger_spec _ _ _ _ _ _ e h1 with h2 | ⟨hm2, hs2⟩
          · exact Or.inl h2
          · exact Or.inr ⟨List.mem_append_left _ hm2, hs2⟩
        · exact Or.inr ⟨List.mem_append_right _ hm, hs⟩

/-- Comment cycle ledger provenance. -/
theorem notifyNewComments_ledger_spec (send : String → String → Bool)
    (lst : List (Issue × List Comment)) :
    ∀ (L : Ledger) (e : LedgerEntry), e ∈ (notifyNewComments send lst L).2 →
      e ∈ L ∨ ((e.category, e.key) ∈ (notifyNewComments send lst L).1
        ∧ send e.category e.key = true) := by
  induction lst with
  | nil => intro L e he; exact Or.inl (by simpa [notifyNewComments] using he)
  | cons p rest ih =>
      intro L e he
      obtain ⟨i, cs⟩ := p
      rw [notifyNewComments_cons] at he ⊢
      rcases ih _ e he with h1 | ⟨hm, hs⟩
      · rcases notifyLoop_ledger_spec _ _ _ _ _ _ e h1 with h2 | ⟨hm2, hs2⟩
        · exact Or.inl h2
        · exact Or.inr ⟨List.mem_append_left _ hm2, hs2⟩
      · exact Or.inr ⟨List.mem_append_right _ hm, hs⟩

/-- Reopened-bug cycle ledger provenance. -/
theorem checkReopenedBugs_ledger_spec (send : String → String → Bool)
    (parseDate : String → Option String) (y t : String) (cands : List ReopenCandidate) :
    ∀ (L : Ledger) (e : LedgerEntry), e ∈ (checkReopenedBugs send parseDate y t cands L).2 →
      e ∈ L ∨ ((e.category, e.key) ∈ (checkReopenedBugs send parseDate y t cands L).1
        ∧ send e.category e.key = true) := by
  induction cands with
  | nil => intro L e he; exact Or.inl (by simpa [checkReopenedBugs] using he)
  | cons b rest ih =>
      intro L e he
      cases hb : b.reopenTime with
      | none =>
          rw [checkReopenedBugs_cons_noTime _ _ _ _ _ _ _ hb] at he ⊢
          exact ih L e he
      | some ts =>
          cases hp : parseDate (dateOf ts) with
          | none =>
              rw [checkReopenedBugs_cons_noParse _ _ _ _ _ _ _ _ hb hp] at he ⊢
              exact ih L e he
          | some d =>
              by_cases hr : (strLtB d y || strLtB t d) = true
              · rw [checkReopenedBugs_cons_outOfRange _ _ _ _ _ _ _ _ _ hb hp hr] at he ⊢
                exact ih L e he
              · have hr' := eq_false_of_ne_true hr
                by_cases hn : wasIssueNotified L "bugs" (reopenKey b.issueKey ts) = true
                · rw [checkReopenedBugs_cons_already _ _ _ _ _ _ _ _ _ hb hp hr' hn] at he ⊢
                  exact ih L e he
                · rw [checkReopenedBugs_cons_fresh _ _ _ _ _ _ _ _ _ hb hp hr'
                    (eq_false_of_ne_true hn)] at he ⊢
                  rcases ih _ e he with h1 | ⟨hm, hs⟩
                  · by_cases hsend : send "bugs" (reopenKey b.issueKey ts) = true
                    · simp only [hsend, if_true, markIssueNotified] at h1
                      rcases List.mem_cons.mp h1 with he1 | he2
                      · subst he1
                        exact Or.inr ⟨List.mem_cons_self _ _, hsend⟩
                      · exact Or.inl he2
                    · simp only [hsend, if_false, Bool.false_eq_true] at h1
                      exact Or.inl (by simpa [eq_false_of_ne_true hsend] using h1)
                  · exact Or.inr ⟨List.mem_cons_of_mem _ hm, hs⟩

/-- C2: mark-only-after-delivery.  In every detection cycle, every ledger
record present after the cycle either predates it or corresponds to an
attempted event of that cycle whose sink call returned true; no record is
created before, or in the absence of, a confirmed successful delivery. -/
theorem mark_only_after_delivery (send : String → String → Bool)
    (stale cRecent : String → Bool) (parseDate : String → Option String)
    (yesterday today : String) (snap bugs : List Issue) (L : Ledger) (e : LedgerEntry) :
    (e ∈ (newIssuesCycle send snap L).2 →
      e ∈ L ∨ ((e.category, e.key) ∈ (newIssuesCycle send snap L).1
        ∧ send e.category e.key = true))
    ∧ (e ∈ (statusChangesCycle send stale snap L).2 →
      e ∈ L ∨ ((e.category, e.key) ∈ (statusChangesCycle send stale snap L).1
        ∧ send e.category e.key = true))
    ∧ (e ∈ (newCommentsCycle send cRecent snap L).2 →
      e ∈ L ∨ ((e.category, e.key) ∈ (newCommentsCycle send cRecent snap L).1
        ∧ send e.category e.key = true))
    ∧ (e ∈ (overdueCycle send snap L).2 →
      e ∈ L ∨ ((e.category, e.key) ∈ (overdueCycle send snap L).1
        ∧ send e.category e.key = true))
    ∧ (e ∈ (upcomingCycle send snap L).2 →
      e ∈ L ∨ ((e.category, e.key) ∈ (upcomingCycle send snap L).1
        ∧ send e.category e.key = true))
    ∧ (e ∈ (reopenedBugCycle send parseDate yesterday today bugs L).2 →
      e ∈ L ∨ ((e.category, e.key) ∈ (reopenedBugCycle send parseDate yesterday today bugs L).1
        ∧ send e.category e.key = true)) :=
  ⟨notifyLoop_ledger_spec _ _ _ _ _ _ e,
   notifyStatusChanges_ledger_spec _ _ _ e,
   notifyNewComments_ledger_spec _ _ _ e,
   notifyLoop_ledger_spec _ _ _ _ _ _ e,
   notifyLoop_ledger_spec _ _ _ _ _ _ e,
   checkReopenedBugs_ledger_spec _ _ _ _ _ _ e⟩

/-- Witness for `mark_only_after_delivery`: each cycle run on concrete
data with an always-true sink; the membership hypothesis of each conjunct
is discharged by evaluation for a record that cycle actually created. -/
theorem mark_only_after_delivery_witness :
    ((⟨"issues", "N-1", "new issue"⟩ : LedgerEntry) ∈ ([] : Ledger)
      ∨ (("issues", "N-1") ∈ (newIssuesCycle (fun _ _ => true) [demoIssue] []).1
          ∧ (fun _ _ : String => true) "issues" "N-1" = true))
    ∧ ((⟨"status_changes", "N-1-500", statusChangeReason ⟨"500", "To Do", "In Progress", "frank"⟩⟩ : LedgerEntry) ∈ ([] : Ledger)
      ∨ (("status_changes", "N-1-500")
            ∈ (statusChangesCycle (fun _ _ => true) (fun _ => false) [demoIssue] []).1
          ∧ (fun _ _ : String => true) "status_changes" "N-1-500" = true))
    ∧ ((⟨"comments", "N-1-c1", "new comment"⟩ : LedgerEntry) ∈ ([] : Ledger)
      ∨ (("comments", "N-1-c1")
            ∈ (newCommentsCycle (fun _ _ => true) (fun _ => true) [demoIssue] []).1
          ∧ (fun _ _ : String => true) "comments" "N-1-c1" = true))
    ∧ ((⟨"issues", "N-1", "overdue"⟩ : LedgerEntry) ∈ ([] : Ledger)
      ∨ (("issues", "N-1") ∈ (overdueCycle (fun _ _ => true) [demoIssue] []).1
          ∧ (fun _ _ : String => true) "issues" "N-1" = true))
    ∧ ((⟨"issues", "N-1", "upcoming deadline"⟩ : LedgerEntry) ∈ ([] : Ledger)
      ∨ (("issues", "N-1") ∈ (upcomingCycle (fun _ _ => true) [demoIssue] []).1
          ∧ (fun _ _ : String => true) "issues" "N-1" = true))
    ∧ ((⟨"bugs", reopenKey "P-1" reopenT2, "reopened: from Done to To Do by bob"⟩ : LedgerEntry) ∈ ([] : Ledger)
      ∨ (("bugs", reopenKey "P-1" reopenT2)
            ∈ (reopenedBugCycle (fun _ _ => true) parseDateId "2025-01-02" "2025-01-03"
                [bugLaterReopenOnly] []).1
          ∧ (fun _ _ : String => true) "bugs" (reopenKey "P-1" reopenT2) = true)) :=
  ⟨(mark_only_after_delivery (fun _ _ => true) (fun _ => false) (fun _ => true) parseDateId
      "2025-01-02" "2025-01-03" [demoIssue] [bugLaterReopenOnly] []
      ⟨"issues", "N-1", "new issue"⟩).1 (by decide),
   (mark_only_after_delivery (fun _ _ => true) (fun _ => false) (fun _ => true) parseDateId
      "2025-01-02" "2025-01-03" [demoIssue] [bugLaterReopenOnly] []
      ⟨"status_changes", "N-1-500", statusChangeReason ⟨"500", "To Do", "In Progress", "frank"⟩⟩).2.1 (by decide),
   (mark_only_after_delivery (fun _ _ => true) (fun _ => false) (fun _ => true) parseDateId
      "2025-01-02" "2025-01-03" [demoIssue] [bugLaterReopenOnly] []
      ⟨"comments", "N-1-c1", "new comment"⟩).2.2.1 (by decide),
   (mark_only_after_delivery (fun _ _ => true) (fun _ => false) (fun _ => true) parseDateId
      "2025-01-02" "2025-01-03" [demoIssue] [bugLaterReopenOnly] []
      ⟨"issues", "N-1", "overdue"⟩).2.2.2.1 (by decide),
   (mark_only_after_delivery (fun _ _ => true) (fun _ => false) (fun _ => true) parseDateId
      "2025-01-02" "2025-01-03" [demoIssue] [bugLaterReopenOnly] []
      ⟨"issues", "N-1", "upcoming deadline"⟩).2.2.2.2.1 (by decide),
   (mark_only_after_delivery (fun _ _ => true) (fun _ => false) (fun _ => true) parseDateId
      "2025-01-02" "2025-01-03" [demoIssue] [bugLaterReopenOnly] []
      ⟨"bugs", reopenKey "P-1" reopenT2, "reopened: from Done to To Do by bob"⟩).2.2.2.2.2 (by decide)⟩

/-- With at least one unit of fuel, the pagination loop records at least
one remote call (only the dead fuel-0 default has `calls = 0`). -/
theorem fetchPagesF_calls_pos (remote : Nat → RemoteResult) (maxResults fuel : Nat)
    (acc : List Issue) (startAt : Nat) (hf : 1 ≤ fuel) :
    1 ≤ (fetchPagesF remote maxResults fuel acc startAt).calls := by
  cases fuel with
  | zero => omega
  | succ f =>
      rw [fetchPagesF]
      cases remote startAt with
      | httpError => simp [FetchResult.calls]
      | raised => simp [FetchResult.calls]
      | ok issues total =>
          dsimp only
          by_cases h : issues.length = 0 ∨ maxResults ≤ acc.length + issues.length
              ∨ total ≤ startAt + issues.length
          · rw [if_pos h]; simp [FetchResult.calls]
          · rw [if_neg h]
            cases fetchPagesF remote maxResults f (acc ++ issues) (startAt + issues.length) <;>
              simp [FetchResult.calls]

/-- The pagination loop always performs at least one remote request. -/
theorem fetchPages_calls_pos (remote : Nat → RemoteResult) (maxResults : Nat) :
    1 ≤ (fetchPages remote maxResults).calls :=
  fetchPagesF_calls_pos remote maxResults (maxResults + 1) [] 0 (by omega)

/-- Fuel irrelevance: every iteration that continues grows the
accumulator while staying strictly below `max_results`, so any two
sufficient fuel amounts unroll the `while True` loop to the same result —
the fuel-indexed definition computes the unbounded loop. -/
theorem fetchPagesF_fuel_irrelevant (remote : Nat → RemoteResult) (maxResults : Nat) :
    ∀ (fuel1 fuel2 : Nat) (acc : List Issue) (startAt : Nat),
      maxResults < acc.length + fuel1 → acc.length ≤ maxResults →
      maxResults < acc.length + fuel2 →
      fetchPagesF remote maxResults fuel1 acc startAt
        = fetchPagesF remote maxResults fuel2 acc startAt := by
  intro fuel1
  induction fuel1 with
  | zero => intro fuel2 acc startAt h1 h2 _; omega
  | succ f1 ih =>
      intro fuel2 acc startAt h1 h2 h3
      cases fuel2 with
      | zero => omega
      | succ f2 =>
          rw [fetchPagesF, fetchPagesF]
          cases remote startAt with
          | httpError => rfl
          | raised => rfl
          | ok issues total =>
              dsimp only
              by_cases h : issues.length = 0 ∨ maxResults ≤ acc.length + issues.length
                  ∨ total ≤ startAt + issues.length
              · rw [if_pos h, if_pos h]
              · rw [if_neg h, if_neg h]
                push_neg at h
                rw [ih f2 (acc ++ issues) (startAt + issues.length)
                  (by simp only [List.length_append]; omega)
                  (by simp only [List.length_append]; omega)
                  (by simp only [List.length_append]; omega)]

/-- C4: for every JQL string containing an `updated >=` or `created >=`
predicate, `search_issues` neither reads nor writes the issues cache:
the cache state is returned unchanged, at least one remote request is
performed, and an immediately repeated identical call (on the cache the
first one left) is the very same computation — a second fresh fetch. -/
theorem time_windowed_queries_bypass_cache (configured : Bool)
    (remote : Nat → RemoteResult) (now now2 : Nat) (jql fields : String)
    (maxResults : Nat) (expand : String) (useCache : Bool) (expiry : Option Nat)
    (c : CacheState) (hts : timeSensitive jql = true) (hcfg : configured = true) :
    (searchIssues configured remote now jql fields maxResults expand useCache expiry c).cache = c
    ∧ 1 ≤ (searchIssues configured remote now jql fields maxResults expand useCache
        expiry c).remoteCalls
    ∧ searchIssues configured remote now2 jql fields maxResults expand useCache expiry
        (searchIssues configured remote now jql fields maxResults expand useCache expiry c).cache
      = searchIssues configured remote now2 jql fields maxResults expand useCache expiry c := by
  have key : ∀ n : Nat,
      (searchIssues configured remote n jql fields maxResults expand useCache expiry c).cache = c
      ∧ 1 ≤ (searchIssues configured remote n jql fields maxResults expand useCache
          expiry c).remoteCalls := by
    intro n
    rw [searchIssues]
    simp only [hts, hcfg, Bool.not_true, Bool.and_false, Bool.false_and, Bool.and_self,
      Bool.false_eq_true, if_false]
    cases hfp : fetchPages remote maxResults with
    | pages all m =>
        have hm : 1 ≤ m := by
          have := fetchPages_calls_pos remote maxResults
          rw [hfp] at this
          exact this
        simp [hfp, hm]
    | httpFail m =>
        have hm : 1 ≤ m := by
          have := fetchPages_calls_pos remote maxResults
          rw [hfp] at this
          exact this
        simp [hfp, hm]
    | exn m =>
        have hm : 1 ≤ m := by
          have := fetchPages_calls_pos remote maxResults
          rw [hfp] at this
          exact this
        simp [hfp, hm]
  refine ⟨(key now).1, (key now).2, ?_⟩
  rw [(key now).1]

/-- Witness for `time_windowed_queries_bypass_cache` on the concrete
time-windowed query the new-issue detector builds. -/
theorem time_windowed_queries_bypass_cache_witness :
    (searchIssues true (fun _ => RemoteResult.ok [demoIssue] 1) 0
      "created >= \"2025-01-01 00:00\" AND (project = P)" "f" 50 "" true none
      emptyCache).cache = emptyCache
    ∧ 1 ≤ (searchIssues true (fun _ => RemoteResult.ok [demoIssue] 1) 0
        "created >= \"2025-01-01 00:00\" AND (project = P)" "f" 50 "" true none
        emptyCache).remoteCalls
    ∧ searchIssues true (fun _ => RemoteResult.ok [demoIssue] 1) 1
        "created >= \"2025-01-01 00:00\" AND (project = P)" "f" 50 "" true none
        (searchIssues true (fun _ => RemoteResult.ok [demoIssue] 1) 0
          "created >= \"2025-01-01 00:00\" AND (project = P)" "f" 50 "" true none
          emptyCache).cache
      = searchIssues true (fun _ => RemoteResult.ok [demoIssue] 1) 1
          "created >= \"2025-01-01 00:00\" AND (project = P)" "f" 50 "" true none
          emptyCache :=
  time_windowed_queries_bypass_cache true (fun _ => RemoteResult.ok [demoIssue] 1) 0 1
    "created >= \"2025-01-01 00:00\" AND (project = P)" "f" 50 "" true none emptyCache
    (by decide) rfl

/-- A non-200 first page makes the pagination loop return the failure
marker after one call. -/
theorem fetchPages_fail_http (remote : Nat → RemoteResult) (maxResults : Nat)
    (h : remote 0 = RemoteResult.httpError) :
    fetchPages remote maxResults = FetchResult.httpFail 1 := by
  rw [fetchPages, fetchPagesF, h]

/-- A raised exception on the first page propagates out of the loop. -/
theorem fetchPages_fail_exn (remote : Nat → RemoteResult) (maxResults : Nat)
    (h : remote 0 = RemoteResult.raised) :
    fetchPages remote maxResults = FetchResult.exn 1 := by
  rw [fetchPages, fetchPagesF, h]

/-- Splitting the per-project loop of `check_reopened_bugs`. -/
theorem collectReopenedBugs_append (fetch : String → List ReopenCandidate)
    (ps1 ps2 : List String) :
    collectReopenedBugs fetch (ps1 ++ ps2)
      = collectReopenedBugs fetch ps1 ++ collectReopenedBugs fetch ps2 := by
  induction ps1 with
  | nil => rfl
  | cons p rest ih => simp [collectReopenedBugs, ih]

/-- C8: fail-open failure semantics.  A failed or raised remote call
makes `search_issues` return `[]` with the cache untouched (the embedded
function is total: the `except` branch is explicit, nothing escapes the
detector's boundary); every detector fed that empty snapshot produces
zero events and leaves the ledger unchanged; the reopened-bug pipeline
returns `[]`; and in the per-project loop a project whose fetch came back
empty contributes nothing while all sibling projects are processed
exactly as if it were absent. -/
theorem detectors_fail_open (configured : Bool) (remote : Nat → RemoteResult)
    (now : Nat) (jql fields : String) (maxResults : Nat) (expand : String)
    (expiry : Option Nat) (c : CacheState) (send : String → String → Bool)
    (stale cRecent : String → Bool) (L : Ledger)
    (fetch : String → List ReopenCandidate) (ps1 ps2 : List String) (pbad : String)
    (hfail : remote 0 = RemoteResult.httpError ∨ remote 0 = RemoteResult.raised)
    (hbad : fetch pbad = []) :
    (searchIssues configured remote now jql fields maxResults expand false expiry c).result = []
    ∧ (searchIssues configured remote now jql fields maxResults expand false expiry c).cache = c
    ∧ findReopenedBugsByJql configured remote now jql c = []
    ∧ newIssuesCycle send [] L = ([], L)
    ∧ statusChangesCycle send stale [] L = ([], L)
    ∧ newCommentsCycle send cRecent [] L = ([], L)
    ∧ collectReopenedBugs fetch (ps1 ++ pbad :: ps2)
        = collectReopenedBugs fetch ps1 ++ collectReopenedBugs fetch ps2 := by
  have hsearch : ∀ (fs : String) (mr : Nat) (ex : String) (e2 : Option Nat),
      (searchIssues configured remote now jql fs mr ex false e2 c).result = []
      ∧ (searchIssues configured remote now jql fs mr ex false e2 c).cache = c := by
    intro fs mr ex e2
    rw [searchIssues]
    cases hc : configured with
    | false => simp
    | true =>
        rcases hfail with hf | hf
        · rw [fetchPages_fail_http remote mr hf]
          simp
        · rw [fetchPages_fail_exn remote mr hf]
          simp
  refine ⟨(hsearch _ _ _ _).1, (hsearch _ _ _ _).2, ?_, rfl, rfl, rfl, ?_⟩
  · rw [findReopenedBugsByJql, (hsearch _ _ _ _).1]
    rfl
  · rw [collectReopenedBugs_append]
    simp [collectReopenedBugs, hbad]

/-- Witness for `detectors_fail_open`: a remote that answers 500 on the
first page, and a middle project whose fetch found nothing. -/
theorem detectors_fail_open_witness :
    (searchIssues true (fun _ => RemoteResult.httpError) 0 "q" "f" 50 "" false none
      emptyCache).result = []
    ∧ (searchIssues true (fun _ => RemoteResult.httpError) 0 "q" "f" 50 "" false none
        emptyCache).cache = emptyCache
    ∧ findReopenedBugsByJql true (fun _ => RemoteResult.httpError) 0 "q" emptyCache = []
    ∧ newIssuesCycle (fun _ _ => true) [] [] = ([], [])
    ∧ statusChangesCycle (fun _ _ => true) (fun _ => false) [] [] = ([], [])
    ∧ newCommentsCycle (fun _ _ => true) (fun _ => true) [] [] = ([], [])
    ∧ collectReopenedBugs (fun _ => []) (["A"] ++ "B" :: ["C"])
        = collectReopenedBugs (fun _ => []) ["A"] ++ collectReopenedBugs (fun _ => []) ["C"] :=
  detectors_fail_open true (fun _ => RemoteResult.httpError) 0 "q" "f" 50 "" none
    emptyCache (fun _ _ => true) (fun _ => false) (fun _ => true) []
    (fun _ => []) ["A"] ["C"] "B" (Or.inl rfl) rfl

/-- C9: overdue boundary.  For an actionable, watched, not-yet-notified
issue: due today means *not* overdue but inside the upcoming-deadline
window `[today, today + days]`; due yesterday means overdue (strict `<`). -/
theorem overdue_boundary (today days : Nat) (projects : List String)
    (remoteIssues : List Issue) (L : Ledger) (i j : Issue) (y : Nat)
    (hdi : i.dueDay = some today) (hmi : i ∈ remoteIssues)
    (hai : actionableStatus i.status = true) (hpi : projects.contains i.projectKey = true)
    (hni : wasIssueNotified L "issues" i.key = false)
    (hdj : j.dueDay = some y) (hy : y + 1 = today) (hmj : j ∈ remoteIssues)
    (haj : actionableStatus j.status = true) (hpj : projects.contains j.projectKey = true)
    (hnj : wasIssueNotified L "issues" j.key = false) :
    i ∉ findOverdueIssues today projects remoteIssues L
    ∧ i ∈ findUpcomingDeadlines today days projects remoteIssues L
    ∧ j ∈ findOverdueIssues today projects remoteIssues L := by
  refine ⟨?_, ?_, ?_⟩
  · intro hmem
    rw [findOverdueIssues, filterUnnotifiedIssues, List.mem_filter, List.mem_filter] at hmem
    have := hmem.1.2
    rw [overdueQueryEval, hdi] at this
    simp at this
  · rw [findUpcomingDeadlines, filterUnnotifiedIssues, List.mem_filter, List.mem_filter]
    refine ⟨⟨hmi, ?_⟩, by simp [hni]⟩
    have hpi2 : i.projectKey ∈ projects := by simpa using hpi
    rw [upcomingQueryEval, hdi]
    simp [hai, hpi2]
  · rw [findOverdueIssues, filterUnnotifiedIssues, List.mem_filter, List.mem_filter]
    refine ⟨⟨hmj, ?_⟩, by simp [hnj]⟩
    have hpj2 : j.projectKey ∈ projects := by simpa using hpj
    rw [overdueQueryEval, hdj]
    simp [haj, hpj2]
    omega

/-- Witness for `overdue_boundary`: day 10 as "today", an issue due on
day 10 and one due on day 9. -/
theorem overdue_boundary_witness :
    demoIssueDueToday ∉ findOverdueIssues 10 ["P"] [demoIssueDueToday, demoIssue] []
    ∧ demoIssueDueToday ∈ findUpcomingDeadlines 10 3 ["P"] [demoIssueDueToday, demoIssue] []
    ∧ demoIssue ∈ findOverdueIssues 10 ["P"] [demoIssueDueToday, demoIssue] [] :=
  overdue_boundary 10 3 ["P"] [demoIssueDueToday, demoIssue] [] demoIssueDueToday demoIssue 9
    rfl (by decide) rfl (by decide) rfl rfl rfl (by decide) rfl (by decide) rfl

/-- Reading an association map after one write: either the written key
(with the written value) or an untouched binding. -/
theorem lookupAssoc_updAssoc_cases {β : Type} (m : List (String × β)) (key k : String)
    (v w : β) (h : lookupAssoc (updAssoc m key v) k = some w) :
    (k = key ∧ w = v) ∨ lookupAssoc m k = some w := by
  induction m with
  | nil =>
      by_cases hk : key = k
      · subst hk
        simp only [updAssoc, lookupAssoc, beq_self_eq_true, if_true, Option.some.injEq] at h
        exact Or.inl ⟨rfl, h.symm⟩
      · simp [updAssoc, lookupAssoc, hk] at h
  | cons p t ih =>
      obtain ⟨a, b⟩ := p
      by_cases hak : a = key
      · subst hak
        simp only [updAssoc, beq_self_eq_true, if_true] at h
        by_cases hk : a = k
        · subst hk
          simp only [lookupAssoc, beq_self_eq_true, if_true, Option.some.injEq] at h
          exact Or.inl ⟨rfl, h.symm⟩
        · simp only [lookupAssoc, beq_iff_eq, hk, if_false] at h ⊢
          exact Or.inr h
      · simp only [updAssoc, beq_iff_eq, hak, if_false] at h
        by_cases hk : a = k
        · simp only [lookupAssoc, beq_iff_eq, hk, if_true] at h ⊢
          exact Or.inr h
        · simp only [lookupAssoc, beq_iff_eq, hk, if_false] at h ⊢
          rcases ih h with h1 | h2
          · exact Or.inl h1
          · exact Or.inr h2

/-- The truncation `all_issues[:max_results]` (`jira/issues.py` 134-136)
bounds the returned list. -/
theorem truncated_length_le (all : List Issue) (maxResults : Nat) :
    (if maxResults < all.length then all.take maxResults else all).length ≤ maxResults := by
  by_cases h : maxResults < all.length
  · rw [if_pos h]
    exact List.length_take_le _ _
  · rw [if_neg h]
    omega

/-- Any cache-bypassing `search_issues` call returns at most
`max_results` issues. -/
theorem searchIssues_nocache_bound (configured : Bool) (remote : Nat → RemoteResult)
    (now : Nat) (jql fields : String) (maxResults : Nat) (expand : String)
    (expiry : Option Nat) (c : CacheState) :
    (searchIssues configured remote now jql fields maxResults expand false expiry
      c).result.length ≤ maxResults := by
  rw [searchIssues]
  simp only [Bool.false_and, Bool.false_eq_true, if_false]
  cases configured with
  | false => simp
  | true =>
      simp only [Bool.not_true, Bool.false_eq_true, if_false]
      cases hfp : fetchPages remote maxResults with
      | pages all n => simpa using truncated_length_le all maxResults
      | httpFail n => simp
      | exn n => simp

/-- C10: result-size bound.  `search_issues` (cache-bypassing, as all
cited callers invoke it) returns at most `max_results` issues — the
paginated fetch stops once `max_results` are accumulated or the remote
total is reached and the list is truncated before returning; every entry
the call writes into the issues cache is equally bounded (an unchanged
binding or the truncated result); and the two capped callers see at most
200 (reopened-bug scan) and 500 (statistics fetch) issues. -/
theorem search_results_bounded (configured : Bool) (remote : Nat → RemoteResult)
    (now : Nat) (jql fields : String) (maxResults : Nat) (expand : String)
    (useCache : Bool) (expiry : Option Nat) (c : CacheState) (k : String) (v : List Issue)
    (hlook : lookupAssoc (searchIssues configured remote now jql fields maxResults expand
        useCache expiry c).cache.issuesCache k = some v) :
    (searchIssues configured remote now jql fields maxResults expand false expiry
      c).result.length ≤ maxResults
    ∧ (lookupAssoc c.issuesCache k = some v ∨ v.length ≤ maxResults)
    ∧ (findReopenedBugsByJql configured remote now jql c).length ≤ 200
    ∧ (statisticsIssueFetch configured remote now jql c).length ≤ 500 := by
  refine ⟨searchIssues_nocache_bound configured remote now jql fields maxResults expand
    expiry c, ?_, ?_, ?_⟩
  · rw [searchIssues] at hlook
    dsimp only at hlook
    by_cases hcached : (useCache && !(timeSensitive jql)
        && isCacheValid c now (searchCacheKey jql fields maxResults expand)
        && (lookupAssoc c.issuesCache (searchCacheKey jql fields maxResults expand)).isSome)
        = true
    · rw [if_pos hcached] at hlook
      exact Or.inl hlook
    · rw [if_neg hcached] at hlook
      cases hc : configured with
      | false =>
          rw [hc] at hlook
          simp only [Bool.not_false, if_true] at hlook
          exact Or.inl hlook
      | true =>
          rw [hc] at hlook
          simp only [Bool.not_true, Bool.false_eq_true, if_false] at hlook
          cases hfp : fetchPages remote maxResults with
          | pages all n =>
              rw [hfp] at hlook
              dsimp only at hlook
              by_cases hw : (useCache && !(timeSensitive jql)) = true
              · rw [if_pos hw] at hlook
                dsimp only [setIssuesCache] at hlook
                rcases lookupAssoc_updAssoc_cases _ _ _ _ _ hlook with ⟨_, hv⟩ | hold
                · subst hv
                  exact Or.inr (truncated_length_le all maxResults)
                · exact Or.inl hold
              · rw [if_neg hw] at hlook
                exact Or.inl hlook
          | httpFail n =>
              rw [hfp] at hlook
              exact Or.inl hlook
          | exn n =>
              rw [hfp] at hlook
              exact Or.inl hlook
  · rw [findReopenedBugsByJql, findReopenCandidates]
    exact le_trans (List.length_filterMap_le _ _)
      (searchIssues_nocache_bound configured remote now jql _ 200 _ none c)
  · exact searchIssues_nocache_bound configured remote now jql _ 500 _ (some 300) c

/-- Witness for `search_results_bounded`: a remote page of two issues
against `max_results = 1`; the call truncates to one issue and caches
exactly that truncated list. -/
theorem search_results_bounded_witness :
    (searchIssues true (fun _ => RemoteResult.ok [demoIssue, demoIssueDueToday] 2) 0
      "q" "f" 1 "" false none emptyCache).result.length ≤ 1
    ∧ (lookupAssoc emptyCache.issuesCache (searchCacheKey "q" "f" 1 "") = some [demoIssue]
        ∨ [demoIssue].length ≤ 1)
    ∧ (findReopenedBugsByJql true (fun _ => RemoteResult.ok [demoIssue, demoIssueDueToday] 2)
        0 "q" emptyCache).length ≤ 200
    ∧ (statisticsIssueFetch true (fun _ => RemoteResult.ok [demoIssue, demoIssueDueToday] 2)
        0 "q" emptyCache).length ≤ 500 :=
  search_results_bounded true (fun _ => RemoteResult.ok [demoIssue, demoIssueDueToday] 2) 0
    "q" "f" 1 "" true none emptyCache (searchCacheKey "q" "f" 1 "") [demoIssue] (by decide)

/-- Bumping a key makes it present. -/
theorem keyMem_bump {β : Type} [Add β] (m : List (String × β)) (n : String) (v : β) :
    keyMem (bump m n v) n = true := by
  induction m with
  | nil => simp [bump, keyMem]
  | cons p t ih =>
      obtain ⟨a, b⟩ := p
      by_cases h : a = n
      · rw [bump, if_pos h]
        simp [keyMem, h]
      · rw [bump, if_neg h]
        simp only [keyMem, List.any_cons, Bool.or_eq_true]
        exact Or.inr ih

/-- Bumping any key preserves the presence of every key. -/
theorem keyMem_bump_other {β : Type} [Add β] (m : List (String × β)) (k n : String) (v : β)
    (h : keyMem m n = true) : keyMem (bump m k v) n = true := by
  induction m with
  | nil => simp [keyMem] at h
  | cons p t ih =>
      obtain ⟨a, b⟩ := p
      simp only [keyMem, List.any_cons, Bool.or_eq_true] at h
      by_cases hak : a = k
      · rw [bump, if_pos hak]
        simp only [keyMem, List.any_cons, Bool.or_eq_true]
        exact h
      · rw [bump, if_neg hak]
        simp only [keyMem, List.any_cons, Bool.or_eq_true]
        rcases h with h1 | h2
        · exact Or.inl h1
        · exact Or.inr (ih h2)

/-- Two bumps of the same key fuse into one. -/
theorem bump_bump_same {β : Type} [AddCommSemigroup β] (m : List (String × β))
    (n : String) (v w : β) : bump (bump m n v) n w = bump m n (v + w) := by
  induction m with
  | nil => simp [bump, add_assoc]
  | cons p t ih =>
      obtain ⟨a, b⟩ := p
      by_cases h : a = n
      · simp [bump, h, add_assoc]
      · simp [bump, h, ih]

/-- Bumps of different keys commute once the first key is present (a
present key is updated in place, so insertion order cannot flip). -/
theorem bump_comm {β : Type} [AddCommSemigroup β] (m : List (String × β))
    (n k : String) (v w : β) (hn : keyMem m n = true) :
    bump (bump m n v) k w = bump (bump m k w) n v := by
  by_cases hkn : k = n
  · subst hkn
    rw [bump_bump_same, bump_bump_same, add_comm]
  · induction m with
    | nil => simp [keyMem] at hn
    | cons p t ih =>
        obtain ⟨a, b⟩ := p
        by_cases han : a = n
        · subst han
          have hnk : ¬ a = k := fun hh => hkn hh.symm
          simp [bump, hnk]
        · by_cases hak : a = k
          · subst hak
            have hne : ¬ a = n := han
            simp [bump, hne]
          · have hn2 : keyMem t n = true := by
              simp only [keyMem, List.any_cons, Bool.or_eq_true] at hn
              rcases hn with h1 | h2
              · exact absurd (by simpa using h1) han
              · exact h2
            simp only [bump, han, hak, if_false]
            rw [ih hn2]

/-- Bumping the accumulator of a fold commutes with the fold, when the
bumped key is already present in the accumulator. -/
theorem mergeCounts_bump_acc {β : Type} [AddCommSemigroup β] (t : List (String × β)) :
    ∀ (a : List (String × β)) (n : String) (v : β), keyMem a n = true →
      mergeCounts (bump a n v) t = bump (mergeCounts a t) n v := by
  induction t with
  | nil => intro a n v _; rfl
  | cons p t2 ih =>
      intro a n v hn
      obtain ⟨k, w⟩ := p
      show mergeCounts (bump (bump a n v) k w) t2 = bump (mergeCounts (bump a k w) t2) n v
      rw [bump_comm a n k v w hn]
      exact ih (bump a k w) n v (keyMem_bump_other a k n w hn)

/-- Folding a bumped entry list equals folding then bumping. -/
theorem mergeCounts_bump {β : Type} [AddCommSemigroup β] (b : List (String × β)) :
    ∀ (a : List (String × β)) (n : String) (v : β),
      mergeCounts a (bump b n v) = bump (mergeCounts a b) n v := by
  induction b with
  | nil => intro a n v; rfl
  | cons p t ih =>
      intro a n v
      obtain ⟨k, w⟩ := p
      by_cases hkn : k = n
      · subst hkn
        show mergeCounts a (bump ((k, w) :: t) k v) = bump (mergeCounts (bump a k w) t) k v
        have hstep : bump ((k, w) :: t) k v = (k, w + v) :: t := by simp [bump]
        rw [hstep]
        show mergeCounts (bump a k (w + v)) t = bump (mergeCounts (bump a k w) t) k v
        rw [← bump_bump_same a k w v]
        exact mergeCounts_bump_acc t (bump a k w) k v (keyMem_bump a k w)
      · have hstep : bump ((k, w) :: t) n v = (k, w) :: bump t n v := by simp [bump, hkn]
        rw [hstep]
        show mergeCounts (bump a k w) (bump t n v) = bump (mergeCounts (bump a k w) t) n v
        exact ih (bump a k w) n v

/-- The fold-based map merge of the aggregation loop is associative. -/
theorem mergeCounts_assoc {β : Type} [AddCommSemigroup β] (c : List (String × β)) :
    ∀ (a b : List (String × β)),
      mergeCounts (mergeCounts a b) c = mergeCounts a (mergeCounts b c) := by
  induction c with
  | nil => intro a b; rfl
  | cons p t ih =>
      intro a b
      obtain ⟨n, v⟩ := p
      show mergeCounts (bump (mergeCounts a b) n v) t = mergeCounts a (mergeCounts (bump b n v) t)
      rw [← mergeCounts_bump b a n v]
      exact ih a (bump b n v)

/-- C7: statistics merge.  The multi-project aggregation's combine
operation — numeric counters summed, per-key per-actor maps merged by
key-wise addition — is associative, and consequently the
top-reopener and top-buggy-assignee rankings, re-derived by sorting the
merged maps (not by concatenating per-project rankings), are identical
for every grouping of the same projects. -/
theorem statistics_combine_associative (a b c : AggStats) :
    combineStats (combineStats a b) c = combineStats a (combineStats b c)
    ∧ deriveReopenerRanking (combineStats (combineStats a b) c).reopeners
        = deriveReopenerRanking (combineStats a (combineStats b c)).reopeners
    ∧ deriveAssigneeRanking (combineStats (combineStats a b) c).assigneeBugStats
        = deriveAssigneeRanking (combineStats a (combineStats b c)).assigneeBugStats := by
  have h : combineStats (combineStats a b) c = combineStats a (combineStats b c) := by
    simp [combineStats, AggStats.mk.injEq, Int.add_assoc, mergeCounts_assoc]
  exact ⟨h, by rw [h], by rw [h]⟩

end JiraSpec
